import Mathlib

/-!
Verification of the `react-ws-kit` connection-sharing WebSocket engine.

The development shallowly embeds the repository's core:
* `hash.ts` — `simpleHash`, `isDefaultParse`, `isDefaultSerialize`,
  `createSocketKey` (the Key Deriver);
* `useSocket.tsx` — the Lifecycle Engine: `connect`, `disconnect`, `send`,
  `flushQueue`, `scheduleReconnect`, `connectSocket`'s event handlers
  (`onopen`/`onmessage`/`onerror`/`onclose`), and
  `killSocketForAllSubscribers`, acting on the process-wide `socketStore`.

JavaScript specifics are modelled explicitly: numbers rendered in template
strings become decimal digit strings (`natStr`), `Infinity` is the `none`
case of an `Option Nat`, 32-bit wrap-around in `simpleHash` is `% 2^32`
with sign adjustment, functions that can throw return `Option`, and the
React state setters (`setStatus`, `setLastReturnedData`, `addToAllData`)
are observed as append-logs on a per-hook record.
-/

set_option autoImplicit false

/-! ### Association lists (the `Map`-backed `socketStore` and the hook registry) -/

/-- Look up the value stored under key `k` (first match), as `Map.get`. -/
def alookup {V : Type} (k : String) : List (String × V) → Option V
  | [] => none
  | (k', v) :: rest => if k' = k then some v else alookup k rest

/-- Insert or overwrite the value under key `k`, as `Map.set`. -/
def aset {V : Type} (k : String) (v : V) : List (String × V) → List (String × V)
  | [] => [(k, v)]
  | (k', v') :: rest => if k' = k then (k, v) :: rest else (k', v') :: aset k v rest

/-- Remove the entry under key `k`, as `Map.delete` (keys are unique in a
`Map`, so removing every matching pair is the same operation). -/
def adel {V : Type} (k : String) (m : List (String × V)) : List (String × V) :=
  m.filter (fun p => p.1 != k)

/-- Update the value under key `k` in place, leaving the map unchanged when
the key is absent (a React state setter on an unmounted hook is a no-op). -/
def aupdate {V : Type} (k : String) (f : V → V) : List (String × V) → List (String × V)
  | [] => []
  | (k', v') :: rest => if k' = k then (k', f v') :: rest else (k', v') :: aupdate k f rest

@[simp] theorem alookup_aset_self {V : Type} (k : String) (v : V) (m : List (String × V)) :
    alookup k (aset k v m) = some v := by
  induction m with
  | nil => simp [alookup, aset]
  | cons hd tl ih =>
    obtain ⟨k', v'⟩ := hd
    by_cases h : k' = k <;> simp [alookup, aset, h, ih]

theorem alookup_aset_ne {V : Type} {k k' : String} (v : V) (m : List (String × V))
    (h : k' ≠ k) : alookup k' (aset k v m) = alookup k' m := by
  induction m with
  | nil => simp [alookup, aset, h, Ne.symm h]
  | cons hd tl ih =>
    obtain ⟨k₀, v₀⟩ := hd
    by_cases h₀ : k₀ = k
    · subst h₀
      simp [alookup, aset, h, Ne.symm h]
    · by_cases h₁ : k₀ = k' <;> simp [alookup, aset, h, h₀, h₁, ih]

@[simp] theorem alookup_adel_self {V : Type} (k : String) (m : List (String × V)) :
    alookup k (adel k m) = none := by
  induction m with
  | nil => simp [alookup, adel]
  | cons hd tl ih =>
    obtain ⟨k₀, v₀⟩ := hd
    by_cases h : k₀ = k
    · subst h
      simpa [adel, List.filter_cons] using ih
    · simp only [adel, List.filter_cons] at *
      simp [alookup, h, ih]

theorem alookup_adel_ne {V : Type} {k k' : String} (m : List (String × V))
    (h : k' ≠ k) : alookup k' (adel k m) = alookup k' m := by
  induction m with
  | nil => simp [alookup, adel]
  | cons hd tl ih =>
    obtain ⟨k₀, v₀⟩ := hd
    by_cases h₀ : k₀ = k
    · subst h₀
      simp only [adel, List.filter_cons] at *
      simp [alookup, Ne.symm h, ih]
    · simp only [adel, List.filter_cons] at *
      by_cases h₁ : k₀ = k' <;> simp [alookup, h, h₀, h₁, ih]

theorem alookup_aupdate_self {V : Type} (k : String) (f : V → V) (m : List (String × V)) :
    alookup k (aupdate k f m) = (alookup k m).map f := by
  induction m with
  | nil => simp [alookup, aupdate]
  | cons hd tl ih =>
    obtain ⟨k₀, v₀⟩ := hd
    by_cases h : k₀ = k <;> simp [alookup, aupdate, h, ih]

theorem alookup_aupdate_ne {V : Type} {k k' : String} (f : V → V) (m : List (String × V))
    (h : k' ≠ k) : alookup k' (aupdate k f m) = alookup k' m := by
  induction m with
  | nil => simp [alookup, aupdate]
  | cons hd tl ih =>
    obtain ⟨k₀, v₀⟩ := hd
    by_cases h₀ : k₀ = k
    · subst h₀
      simp [alookup, aupdate, h, Ne.symm h]
    · by_cases h₁ : k₀ = k' <;> simp [alookup, aupdate, h, h₀, h₁, ih]

/-! ### JavaScript decimal rendering of natural numbers

`natStr n` is the string a JS template literal produces for a non-negative
integer.  It is given fuel (`n + 1` suffices) so that the definition is
structural and evaluates by `decide`/`rfl`. -/

/-- The character for the decimal digit `n` (meaningful for `n < 10`). -/
def digitChar10 (n : Nat) : Char := Char.ofNat (48 + n)

/-- Fuel-indexed most-significant-first decimal digits of `n`. -/
def natDigitsAux : Nat → Nat → List Char
  | 0, _ => []
  | fuel + 1, n =>
    if n < 10 then [digitChar10 n]
    else natDigitsAux fuel (n / 10) ++ [digitChar10 (n % 10)]

/-- Decimal digits of `n`, most significant first. -/
def natDigits (n : Nat) : List Char := natDigitsAux (n + 1) n

/-- JS rendering of a non-negative integer in a template string. -/
def natStr (n : Nat) : String := String.mk (natDigits n)

theorem natDigitsAux_fuel (n : Nat) : ∀ f g : Nat, n < f → n < g →
    natDigitsAux f n = natDigitsAux g n := by
  induction n using Nat.strong_induction_on with
  | _ n ih =>
    intro f g hf hg
    match f, g with
    | f' + 1, g' + 1 =>
      by_cases h10 : n < 10
      · simp [natDigitsAux, h10]
      · have hn : 0 < n := by omega
        have hdiv : n / 10 < n := Nat.div_lt_self hn (by norm_num)
        have h₁ : n / 10 < f' := by omega
        have h₂ : n / 10 < g' := by omega
        simp only [natDigitsAux, h10, if_false]
        rw [ih (n / 10) hdiv f' g' h₁ h₂]

theorem natDigits_lt (n : Nat) (h : n < 10) : natDigits n = [digitChar10 n] := by
  simp [natDigits, natDigitsAux, h]

theorem natDigits_ge (n : Nat) (h : ¬ n < 10) :
    natDigits n = natDigits (n / 10) ++ [digitChar10 (n % 10)] := by
  have hn : 0 < n := by omega
  have hdiv : n / 10 < n := Nat.div_lt_self hn (by norm_num)
  show natDigitsAux (n + 1) n = natDigitsAux (n / 10 + 1) (n / 10) ++ [digitChar10 (n % 10)]
  rw [show natDigitsAux (n + 1) n = natDigitsAux n (n / 10) ++ [digitChar10 (n % 10)] by
    simp [natDigitsAux, h]]
  rw [natDigitsAux_fuel (n / 10) n (n / 10 + 1) hdiv (by omega)]

theorem natDigits_ne_nil (n : Nat) : natDigits n ≠ [] := by
  by_cases h : n < 10
  · simp [natDigits_lt n h]
  · simp [natDigits_ge n h]

theorem digitChar10_inj : ∀ m : Nat, m < 10 → ∀ n : Nat, n < 10 →
    digitChar10 m = digitChar10 n → m = n := by decide

theorem digitChar10_toNat : ∀ d : Nat, d < 10 →
    48 ≤ (digitChar10 d).toNat ∧ (digitChar10 d).toNat ≤ 57 := by decide

theorem natDigits_inj : ∀ m n : Nat, natDigits m = natDigits n → m = n := by
  intro m
  induction m using Nat.strong_induction_on with
  | _ m ih =>
    intro n h
    by_cases hm : m < 10 <;> by_cases hn : n < 10
    · rw [natDigits_lt m hm, natDigits_lt n hn] at h
      exact digitChar10_inj m hm n hn (by simpa using h)
    · exfalso
      rw [natDigits_lt m hm, natDigits_ge n hn] at h
      cases hA : natDigits (n / 10) with
      | nil => exact natDigits_ne_nil _ hA
      | cons a t =>
        rw [hA] at h
        have hlen := congrArg List.length h
        simp only [List.length_cons, List.length_append, List.length_nil] at hlen
        omega
    · exfalso
      rw [natDigits_ge m hm, natDigits_lt n hn] at h
      cases hA : natDigits (m / 10) with
      | nil => exact natDigits_ne_nil _ hA
      | cons a t =>
        rw [hA] at h
        have hlen := congrArg List.length h
        simp only [List.length_cons, List.length_append, List.length_nil] at hlen
        omega
    · rw [natDigits_ge m hm, natDigits_ge n hn] at h
      have hrev := congrArg List.reverse h
      simp only [List.reverse_append, List.reverse_cons, List.reverse_nil,
        List.nil_append, List.singleton_append, List.cons.injEq] at hrev
      obtain ⟨hlast, hinit⟩ := hrev
      have hdigit : m % 10 = n % 10 :=
        digitChar10_inj _ (Nat.mod_lt _ (by norm_num)) _ (Nat.mod_lt _ (by norm_num)) hlast
      have hquot : m / 10 = n / 10 := by
        have hdiv : m / 10 < m := Nat.div_lt_self (by omega) (by norm_num)
        exact ih (m / 10) hdiv (n / 10) (by
          have := congrArg List.reverse hinit
          simpa using this)
      omega

theorem natStr_inj {m n : Nat} (h : natStr m = natStr n) : m = n := by
  apply natDigits_inj
  have := congrArg String.data h
  simpa [natStr] using this

theorem natDigits_digits (n : Nat) :
    ∀ c ∈ natDigits n, 48 ≤ c.toNat ∧ c.toNat ≤ 57 := by
  induction n using Nat.strong_induction_on with
  | _ n ih =>
    intro c hc
    by_cases h : n < 10
    · rw [natDigits_lt n h] at hc
      simp at hc
      subst hc
      exact digitChar10_toNat n h
    · rw [natDigits_ge n h] at hc
      rcases List.mem_append.mp hc with hc | hc
      · exact ih (n / 10) (Nat.div_lt_self (by omega) (by norm_num)) c hc
      · simp at hc
        subst hc
        exact digitChar10_toNat (n % 10) (Nat.mod_lt _ (by norm_num))

/-! ### `hash.ts` — the Key Deriver -/

/-- A JavaScript function value: the source text that
`Function.prototype.toString` returns, together with its behaviour.
A call that throws is modelled as returning `none`. -/
structure JsFun (γ δ : Type) where
  src : String
  fn : γ → Option δ

/-- The `string | string[]` union of the `protocols` option. -/
inductive JsProtocols where
  | single (s : String)
  | list (l : List String)
deriving DecidableEq, Repr

/-- `NormalizedOptions` from `types.ts`: every default already applied.
`reconnectAttempts = none` models the `Infinity` default; `MessageEvent`
is represented by its `data` string. -/
structure NormalizedOptions (α β : Type) where
  autoConnect : Bool
  protocols : Option JsProtocols
  autoReconnect : Bool
  reconnectAttempts : Option Nat
  reconnectDelay : Nat
  queueMessages : Bool
  maxQueueSize : Nat
  parse : JsFun String α
  serialize : JsFun β String
  key : Option String

/-- Strict UTF-16 lexicographic `<` on strings, the default JS sort order. -/
def jsLtChars : List Char → List Char → Bool
  | [], [] => false
  | [], _ :: _ => true
  | _ :: _, [] => false
  | a :: as, b :: bs =>
    if a.toNat < b.toNat then true
    else if b.toNat < a.toNat then false
    else jsLtChars as bs

def jsLeString (a b : String) : Bool := !(jsLtChars b.data a.data)

def insertSorted (x : String) : List String → List String
  | [] => [x]
  | y :: ys => if jsLeString x y then x :: y :: ys else y :: insertSorted x ys

/-- `Array.prototype.sort()` with the default comparator (stable, by
UTF-16 code units), modelled as insertion sort. -/
def jsSort : List String → List String
  | [] => []
  | x :: xs => insertSorted x (jsSort xs)

/-- `Array.prototype.join(sep)`. -/
def joinSep (sep : String) : List String → String
  | [] => ""
  | [x] => x
  | x :: y :: rest => x ++ sep ++ joinSep sep (y :: rest)

def listPrefixOf : List Char → List Char → Bool
  | [], _ => true
  | _ :: _, [] => false
  | a :: as, b :: bs => a == b && listPrefixOf as bs

def listInfixOf (p : List Char) : List Char → Bool
  | [] => listPrefixOf p []
  | c :: rest => listPrefixOf p (c :: rest) || listInfixOf p rest

/-- `String.prototype.includes`. -/
def jsIncludes (s sub : String) : Bool := listInfixOf sub.data s.data

/-- `isDefaultParse` from `hash.ts`. -/
def isDefaultParse {γ δ : Type} (f : JsFun γ δ) : Bool :=
  jsIncludes f.src "JSON.parse" && jsIncludes f.src "event.data"

/-- `isDefaultSerialize` from `hash.ts`. -/
def isDefaultSerialize {γ δ : Type} (f : JsFun γ δ) : Bool :=
  jsIncludes f.src "JSON.stringify" && !(jsIncludes f.src "event")

/-- Wrap an integer to a signed 32-bit value (the JS `ToInt32` coercion
performed by `<<` and `&`). -/
def toInt32 (x : Int) : Int :=
  let m := x % 4294967296
  if m < 2147483648 then m else m - 4294967296

/-- One step of the `simpleHash` loop:
`hash = ((hash << 5) - hash) + charCode; hash = hash & hash`. -/
def hashStep (h : Int) (c : Char) : Int :=
  toInt32 (toInt32 (h * 32) - h + (c.toNat : Int))

def simpleHashInt (s : String) : Int := s.data.foldl hashStep 0

/-- One base-36 digit, lowercase, as JS `Number.prototype.toString(36)`. -/
def base36Digit (n : Nat) : Char :=
  if n < 10 then Char.ofNat (48 + n) else Char.ofNat (87 + n)

def natToBase36Aux : Nat → Nat → List Char
  | 0, _ => []
  | f + 1, n =>
    if n < 36 then [base36Digit n]
    else natToBase36Aux f (n / 36) ++ [base36Digit (n % 36)]

/-- JS `x.toString(36)` for a 32-bit signed integer. -/
def intToString36 (x : Int) : String :=
  if x < 0 then "-" ++ String.mk (natToBase36Aux (x.natAbs + 1) x.natAbs)
  else String.mk (natToBase36Aux (x.toNat + 1) x.toNat)

/-- `simpleHash` from `hash.ts`. -/
def simpleHash (str : String) : String := intToString36 (simpleHashInt str)

/-- The `proto:` component when `config.protocols` is truthy: a plain string
is used verbatim, an array is sorted and comma-joined.  An empty protocol
string is falsy in JS, so it yields no component at all. -/
def protoRender {α β : Type} (c : NormalizedOptions α β) : Option String :=
  match c.protocols with
  | none => none
  | some (.single s) => if s = "" then none else some s
  | some (.list l) => some (joinSep "," (jsSort l))

/-- The `ph:`/`sh:` fingerprint components used when no explicit key is
supplied. -/
def hashParts {α β : Type} (c : NormalizedOptions α β) : List String :=
  ["ph:" ++ (if isDefaultParse c.parse then "default-parse" else simpleHash c.parse.src),
   "sh:" ++ (if isDefaultSerialize c.serialize then "default-serialize" else simpleHash c.serialize.src)]

def boolStr (b : Bool) : String := if b then "true" else "false"

/-- JS rendering of `reconnectAttempts` (`Infinity` or a natural number). -/
def numStr : Option Nat → String
  | none => "Infinity"
  | some n => natStr n

/-- The identity components: the explicit key when it is truthy, otherwise
the function fingerprints. -/
def idParts {α β : Type} (c : NormalizedOptions α β) : List String :=
  match c.key with
  | some k => if k = "" then hashParts c else ["key:" ++ k]
  | none => hashParts c

/-- The optional `proto:` component. -/
def protoParts {α β : Type} (c : NormalizedOptions α β) : List String :=
  match protoRender c with
  | none => []
  | some p => ["proto:" ++ p]

/-- The five always-pushed scalar components. -/
def scalarParts {α β : Type} (c : NormalizedOptions α β) : List String :=
  ["ar:" ++ boolStr c.autoReconnect,
   "ra:" ++ numStr c.reconnectAttempts,
   "rd:" ++ natStr c.reconnectDelay,
   "qm:" ++ boolStr c.queueMessages,
   "mqs:" ++ natStr c.maxQueueSize]

/-- Every component after the url, in push order. -/
def keyTail {α β : Type} (c : NormalizedOptions α β) : List String :=
  protoParts c ++ scalarParts c ++ idParts c

/-- The `parts` array built by `createSocketKey`, in push order. -/
def socketKeyParts {α β : Type} (url : String) (c : NormalizedOptions α β) : List String :=
  url :: keyTail c

/-- `createSocketKey` from `hash.ts`: `parts.join('|')`. -/
def createSocketKey {α β : Type} (url : String) (c : NormalizedOptions α β) : String :=
  joinSep "|" (socketKeyParts url c)

/-! ### Injectivity of the key assembly (for claim C1) -/

theorem string_ext {s t : String} (h : s.data = t.data) : s = t := by
  cases s; cases t; exact congrArg String.mk h

/-- Character-level image of `joinSep "|"`. -/
def joinSepL : List (List Char) → List Char
  | [] => []
  | [x] => x
  | x :: y :: rest => x ++ '|' :: joinSepL (y :: rest)

theorem joinSep_bar_data : ∀ l : List String,
    (joinSep "|" l).data = joinSepL (l.map String.data) := by
  intro l
  induction l with
  | nil => rfl
  | cons x xs ih =>
    cases xs with
    | nil => rfl
    | cons y ys =>
      show (x ++ "|" ++ joinSep "|" (y :: ys)).data =
        x.data ++ '|' :: joinSepL ((y :: ys).map String.data)
      rw [String.data_append, String.data_append, ih]
      simp

theorem joinSep_cons_ne_nil (x : String) {l : List String} (h : l ≠ []) :
    joinSep "|" (x :: l) = x ++ "|" ++ joinSep "|" l := by
  cases l with
  | nil => exact absurd rfl h
  | cons y ys => rfl

theorem append_bar_inj : ∀ a b r₁ r₂ : List Char, '|' ∉ a → '|' ∉ b →
    a ++ '|' :: r₁ = b ++ '|' :: r₂ → a = b ∧ r₁ = r₂ := by
  intro a
  induction a with
  | nil =>
    intro b r₁ r₂ _ hb h
    cases b with
    | nil => simpa using h
    | cons d ds =>
      exfalso
      simp only [List.nil_append, List.cons_append, List.cons.injEq] at h
      exact hb (h.1 ▸ List.mem_cons_self d ds)
  | cons c cs ih =>
    intro b r₁ r₂ ha hb h
    cases b with
    | nil =>
      exfalso
      simp only [List.nil_append, List.cons_append, List.cons.injEq] at h
      exact ha (h.1 ▸ List.mem_cons_self c cs)
    | cons d ds =>
      simp only [List.cons_append, List.cons.injEq] at h
      obtain ⟨hcd, hrest⟩ := h
      have ha' : '|' ∉ cs := fun hm => ha (List.mem_cons_of_mem c hm)
      have hb' : '|' ∉ ds := fun hm => hb (List.mem_cons_of_mem d hm)
      obtain ⟨h₁, h₂⟩ := ih ds r₁ r₂ ha' hb' hrest
      exact ⟨by rw [hcd, h₁], h₂⟩

theorem joinSepL_inj : ∀ A B : List (List Char),
    (∀ x ∈ A, x ≠ [] ∧ '|' ∉ x) → (∀ x ∈ B, x ≠ [] ∧ '|' ∉ x) →
    joinSepL A = joinSepL B → A = B := by
  intro A
  induction A with
  | nil =>
    intro B _ hB h
    cases B with
    | nil => rfl
    | cons b bs =>
      exfalso
      cases bs with
      | nil => exact (hB b (List.mem_cons_self b [])).1 h.symm
      | cons y ys =>
        have : b ++ '|' :: joinSepL (y :: ys) = [] := h.symm
        rcases List.append_eq_nil.mp this with ⟨_, h2⟩
        exact List.cons_ne_nil _ _ h2
  | cons a as ih =>
    intro B hA hB h
    cases B with
    | nil =>
      exfalso
      cases as with
      | nil => exact (hA a (List.mem_cons_self a [])).1 h
      | cons x xs =>
        have : a ++ '|' :: joinSepL (x :: xs) = [] := h
        rcases List.append_eq_nil.mp this with ⟨_, h2⟩
        exact List.cons_ne_nil _ _ h2
    | cons b bs =>
      cases as with
      | nil =>
        cases bs with
        | nil =>
          have : a = b := h
          rw [this]
        | cons y ys =>
          exfalso
          have hmem : '|' ∈ a := by
            have : a = b ++ '|' :: joinSepL (y :: ys) := h
            rw [this]
            exact List.mem_append_right b (List.mem_cons_self _ _)
          exact (hA a (List.mem_cons_self a [])).2 hmem
      | cons x xs =>
        cases bs with
        | nil =>
          exfalso
          have hmem : '|' ∈ b := by
            have : b = a ++ '|' :: joinSepL (x :: xs) := h.symm
            rw [this]
            exact List.mem_append_right a (List.mem_cons_self _ _)
          exact (hB b (List.mem_cons_self b [])).2 hmem
        | cons y ys =>
          have h' : a ++ '|' :: joinSepL (x :: xs) = b ++ '|' :: joinSepL (y :: ys) := h
          obtain ⟨hab, hrest⟩ := append_bar_inj a b _ _
            (hA a (List.mem_cons_self a _)).2 (hB b (List.mem_cons_self b _)).2 h'
          have htail : x :: xs = y :: ys :=
            ih (y :: ys) (fun z hz => hA z (List.mem_cons_of_mem a hz))
              (fun z hz => hB z (List.mem_cons_of_mem b hz)) hrest
          rw [hab, htail]

/-- A component the tail-injectivity argument can consume: nonempty and
free of the `|` separator. -/
def goodPart (s : String) : Prop := s.data ≠ [] ∧ '|' ∉ s.data

theorem joinSep_bar_inj {A B : List String}
    (hA : ∀ x ∈ A, goodPart x) (hB : ∀ x ∈ B, goodPart x)
    (h : joinSep "|" A = joinSep "|" B) : A = B := by
  have hd := congrArg String.data h
  rw [joinSep_bar_data, joinSep_bar_data] at hd
  have hmap : A.map String.data = B.map String.data := by
    apply joinSepL_inj
    · intro x hx
      obtain ⟨s, hs, rfl⟩ := List.mem_map.mp hx
      exact hA s hs
    · intro x hx
      obtain ⟨s, hs, rfl⟩ := List.mem_map.mp hx
      exact hB s hs
    · exact hd
  exact List.map_injective_iff.mpr (fun a b hab => string_ext hab) hmap

theorem string_append_cancel_left {l x y : String} (h : l ++ x = l ++ y) : x = y := by
  apply string_ext
  have hd := congrArg String.data h
  rw [String.data_append, String.data_append] at hd
  exact List.append_cancel_left hd

/-! ### Facts about the rendered components -/

theorem natStr_barFree (n : Nat) : '|' ∉ (natStr n).data := by
  intro hm
  have hb := natDigits_digits n '|' (by simpa [natStr] using hm)
  have h124 : ('|').toNat = 124 := by decide
  omega

theorem natStr_ne_infinity (n : Nat) : natStr n ≠ "Infinity" := by
  intro h
  have hd : natDigits n = ("Infinity" : String).data := congrArg String.data h
  have hmem : 'I' ∈ natDigits n := by
    rw [show ("Infinity" : String).data = 'I' :: "nfinity".data from rfl] at hd
    rw [hd]
    exact List.mem_cons_self _ _
  have hb := natDigits_digits n 'I' hmem
  have h73 : ('I').toNat = 73 := by decide
  omega

theorem boolStr_inj : ∀ a b : Bool, boolStr a = boolStr b → a = b := by decide

theorem boolStr_barFree : ∀ b : Bool, '|' ∉ (boolStr b).data := by decide

theorem numStr_barFree (x : Option Nat) : '|' ∉ (numStr x).data := by
  cases x with
  | none => decide
  | some n => exact natStr_barFree n

theorem numStr_inj {x y : Option Nat} (h : numStr x = numStr y) : x = y := by
  cases x with
  | none =>
    cases y with
    | none => rfl
    | some n => exact absurd h.symm (natStr_ne_infinity n)
  | some m =>
    cases y with
    | none => exact absurd h (natStr_ne_infinity m)
    | some n => exact congrArg some (natStr_inj h)

theorem goodPart_label (l s : String) (hl : l.data ≠ []) (hlb : '|' ∉ l.data)
    (hsb : '|' ∉ s.data) : goodPart (l ++ s) := by
  constructor
  · rw [String.data_append]
    intro h
    exact hl (List.append_eq_nil.mp h).1
  · rw [String.data_append]
    intro h
    rcases List.mem_append.mp h with h | h
    · exact hlb h
    · exact hsb h

theorem ar_ne_proto (b : Bool) (p : String) : "ar:" ++ boolStr b ≠ "proto:" ++ p := by
  intro h
  have hd := congrArg String.data h
  rw [String.data_append, String.data_append] at hd
  rw [show ("ar:" : String).data = ['a', 'r', ':'] from rfl,
      show ("proto:" : String).data = ['p', 'r', 'o', 't', 'o', ':'] from rfl] at hd
  simp only [List.cons_append, List.nil_append, List.cons.injEq] at hd
  exact absurd hd.1 (by decide)

/-- The documented caller contract under which the key is a faithful
fingerprint: protocol strings and explicit keys avoid the `|` separator,
and a configuration either supplies a truthy explicit `key` or uses the
built-in default parse/serialize functions (custom functions without an
explicit key are hashed, which the spec documents as a caller error). -/
def GoodCfg {α β : Type} (c : NormalizedOptions α β) : Prop :=
  (match protoRender c with
   | none => True
   | some p => '|' ∉ p.data) ∧
  (match c.key with
   | none => True
   | some k => '|' ∉ k.data) ∧
  ((match c.key with
    | some k => k ≠ ""
    | none => False) ∨
   (isDefaultParse c.parse = true ∧ isDefaultSerialize c.serialize = true))

theorem idParts_cases {α β : Type} (c : NormalizedOptions α β) (hc : GoodCfg c) :
    (∃ k, c.key = some k ∧ k ≠ "" ∧ '|' ∉ k.data ∧ idParts c = ["key:" ++ k]) ∨
    idParts c = ["ph:default-parse", "sh:default-serialize"] := by
  obtain ⟨_, hkey, hid⟩ := hc
  cases hk : c.key with
  | none =>
    right
    rcases hid with hid | ⟨hp, hs⟩
    · rw [hk] at hid
      exact hid.elim
    · simp [idParts, hk, hashParts, hp, hs]
  | some k =>
    by_cases hke : k = ""
    · right
      rcases hid with hid | ⟨hp, hs⟩
      · rw [hk] at hid
        exact absurd hke hid
      · subst hke
        simp [idParts, hk, hashParts, hp, hs]
    · left
      refine ⟨k, rfl, hke, ?_, by simp [idParts, hk, hke]⟩
      rw [hk] at hkey
      exact hkey

theorem keyTail_ne_nil {α β : Type} (c : NormalizedOptions α β) : keyTail c ≠ [] := by
  intro h
  rcases List.append_eq_nil.mp h with ⟨h1, _⟩
  rcases List.append_eq_nil.mp h1 with ⟨_, h2⟩
  simp [scalarParts] at h2

theorem keyTail_good {α β : Type} (c : NormalizedOptions α β) (hc : GoodCfg c) :
    ∀ x ∈ keyTail c, goodPart x := by
  intro x hx
  simp only [keyTail, List.append_assoc, List.mem_append] at hx
  rcases hx with hx | hx | hx
  · cases hp : protoRender c with
    | none => simp [protoParts, hp] at hx
    | some p =>
      have hpb : '|' ∉ p.data := by
        have h1 := hc.1
        rw [hp] at h1
        exact h1
      simp only [protoParts, hp, List.mem_singleton] at hx
      subst hx
      exact goodPart_label "proto:" p (by decide) (by decide) hpb
  · simp only [scalarParts, List.mem_cons, List.not_mem_nil, or_false] at hx
    rcases hx with rfl | rfl | rfl | rfl | rfl
    · exact goodPart_label "ar:" _ (by decide) (by decide) (boolStr_barFree _)
    · exact goodPart_label "ra:" _ (by decide) (by decide) (numStr_barFree _)
    · exact goodPart_label "rd:" _ (by decide) (by decide) (natStr_barFree _)
    · exact goodPart_label "qm:" _ (by decide) (by decide) (boolStr_barFree _)
    · exact goodPart_label "mqs:" _ (by decide) (by decide) (natStr_barFree _)
  · rcases idParts_cases c hc with ⟨k, _, _, hkb, hidp⟩ | hidp
    · rw [hidp] at hx
      simp only [List.mem_singleton] at hx
      subst hx
      exact goodPart_label "key:" k (by decide) (by decide) hkb
    · rw [hidp] at hx
      simp only [List.mem_cons, List.not_mem_nil, or_false] at hx
      rcases hx with rfl | rfl
      · exact ⟨by decide, by decide⟩
      · exact ⟨by decide, by decide⟩

/-! ### Claim C1 -/

/-- Source text of the default parse function (`defaultParse` in
`useSocket.tsx`), as `Function.prototype.toString` would render it. -/
def defaultParseSrc : String :=
  "<TIn,>(event: MessageEvent): TIn => \x7b return JSON.parse(event.data) as TIn \x7d"

/-- Source text of the default serialize function (`defaultSerialize`). -/
def defaultSerializeSrc : String :=
  "<TOut,>(data: TOut): string => \x7b return JSON.stringify(data) \x7d"

/-- A configuration whose `protocols` is the single protocol string
`"a,b"`, with an explicit identity key. -/
def cfgProtoStr : NormalizedOptions Nat Nat :=
  { autoConnect := false
    protocols := some (.single "a,b")
    autoReconnect := true
    reconnectAttempts := some 3
    reconnectDelay := 1000
    queueMessages := true
    maxQueueSize := 50
    parse := ⟨defaultParseSrc, fun s => s.toNat?⟩
    serialize := ⟨defaultSerializeSrc, fun n => some (natStr n)⟩
    key := some "k" }

/-- The same configuration but with the two-element protocol list
`["b", "a"]`. -/
def cfgProtoList : NormalizedOptions Nat Nat :=
  { cfgProtoStr with protocols := some (.list ["b", "a"]) }

/-- C1, counterexample: the two configurations differ in their protocols
field (a single protocol named `"a,b"` versus the protocol list
`["b", "a"]`) while agreeing on every other keyed field, yet
`createSocketKey` maps them to the same key — the claimed
"any difference in those fields yields a different key (no false
sharing)" fails, because a protocol array is sorted and comma-joined
before being keyed. -/
theorem C1_counterexample :
    createSocketKey "ws://x" cfgProtoStr = createSocketKey "ws://x" cfgProtoList ∧
    cfgProtoStr.protocols ≠ cfgProtoList.protocols ∧
    cfgProtoStr.autoReconnect = cfgProtoList.autoReconnect ∧
    cfgProtoStr.reconnectAttempts = cfgProtoList.reconnectAttempts ∧
    cfgProtoStr.reconnectDelay = cfgProtoList.reconnectDelay ∧
    cfgProtoStr.queueMessages = cfgProtoList.queueMessages ∧
    cfgProtoStr.maxQueueSize = cfgProtoList.maxQueueSize ∧
    cfgProtoStr.key = cfgProtoList.key ∧
    cfgProtoStr.parse.src = cfgProtoList.parse.src ∧
    cfgProtoStr.serialize.src = cfgProtoList.serialize.src := by
  refine ⟨by decide, by decide, rfl, rfl, rfl, rfl, rfl, rfl, rfl, rfl⟩

/-- C1 (amended): for configurations honouring the documented caller
contract (`GoodCfg`: no `|` in protocol strings or explicit keys; custom
parse/serialize only together with a truthy explicit key), two
configurations produce the same key for an address if and only if they
agree on the rendered protocol selection (`protoRender`: a protocol list
is sorted and comma-joined, a single string is taken verbatim, an
absent/empty selection renders nothing), on `autoReconnect`,
`reconnectAttempts`, `reconnectDelay`, `queueMessages`, `maxQueueSize`,
and on the identity components (`idParts`: the explicit key when truthy,
otherwise the default-function markers). -/
theorem C1_key_amended {α β : Type} (url : String) (c1 c2 : NormalizedOptions α β)
    (h1 : GoodCfg c1) (h2 : GoodCfg c2) :
    createSocketKey url c1 = createSocketKey url c2 ↔
      (protoRender c1 = protoRender c2 ∧
       c1.autoReconnect = c2.autoReconnect ∧
       c1.reconnectAttempts = c2.reconnectAttempts ∧
       c1.reconnectDelay = c2.reconnectDelay ∧
       c1.queueMessages = c2.queueMessages ∧
       c1.maxQueueSize = c2.maxQueueSize ∧
       idParts c1 = idParts c2) := by
  constructor
  · intro h
    rw [createSocketKey, createSocketKey, socketKeyParts, socketKeyParts,
      joinSep_cons_ne_nil url (keyTail_ne_nil c1),
      joinSep_cons_ne_nil url (keyTail_ne_nil c2)] at h
    have hj : joinSep "|" (keyTail c1) = joinSep "|" (keyTail c2) :=
      string_append_cancel_left h
    have htails := joinSep_bar_inj (keyTail_good c1 h1) (keyTail_good c2 h2) hj
    cases hp1 : protoRender c1 with
    | none =>
      cases hp2 : protoRender c2 with
      | none =>
        simp only [keyTail, protoParts, hp1, hp2, List.nil_append, scalarParts,
          List.cons_append, List.cons.injEq] at htails
        obtain ⟨har, hra, hrd, hqm, hmqs, hid⟩ := htails
        exact ⟨rfl, boolStr_inj _ _ (string_append_cancel_left har),
          numStr_inj (string_append_cancel_left hra),
          natStr_inj (string_append_cancel_left hrd),
          boolStr_inj _ _ (string_append_cancel_left hqm),
          natStr_inj (string_append_cancel_left hmqs), hid⟩
      | some p2 =>
        exfalso
        simp only [keyTail, protoParts, hp1, hp2, List.nil_append, scalarParts,
          List.cons_append, List.cons.injEq] at htails
        exact ar_ne_proto _ _ htails.1
    | some p1 =>
      cases hp2 : protoRender c2 with
      | none =>
        exfalso
        simp only [keyTail, protoParts, hp1, hp2, List.nil_append, scalarParts,
          List.cons_append, List.cons.injEq] at htails
        exact ar_ne_proto _ _ htails.1.symm
      | some p2 =>
        simp only [keyTail, protoParts, hp1, hp2, List.nil_append, scalarParts,
          List.cons_append, List.cons.injEq] at htails
        obtain ⟨hp, har, hra, hrd, hqm, hmqs, hid⟩ := htails
        exact ⟨congrArg some (string_append_cancel_left hp),
          boolStr_inj _ _ (string_append_cancel_left har),
          numStr_inj (string_append_cancel_left hra),
          natStr_inj (string_append_cancel_left hrd),
          boolStr_inj _ _ (string_append_cancel_left hqm),
          natStr_inj (string_append_cancel_left hmqs), hid⟩
  · rintro ⟨e1, e2, e3, e4, e5, e6, e7⟩
    simp only [createSocketKey, socketKeyParts, keyTail, protoParts, scalarParts]
    rw [e1, e2, e3, e4, e5, e6, e7]

/-- A configuration with an unsorted protocol list. -/
def cfgWitness1 : NormalizedOptions Nat Nat :=
  { cfgProtoStr with protocols := some (.list ["b", "a"]) }

/-- The same configuration with the sorted protocol list. -/
def cfgWitness2 : NormalizedOptions Nat Nat :=
  { cfgProtoStr with protocols := some (.list ["a", "b"]) }

/-- C1 witness: the amended equivalence applied at two concrete
configurations satisfying the caller contract. -/
theorem C1_witness :
    GoodCfg cfgWitness1 ∧ GoodCfg cfgWitness2 ∧
      (createSocketKey "ws://x" cfgWitness1 = createSocketKey "ws://x" cfgWitness2 ↔
        (protoRender cfgWitness1 = protoRender cfgWitness2 ∧
         cfgWitness1.autoReconnect = cfgWitness2.autoReconnect ∧
         cfgWitness1.reconnectAttempts = cfgWitness2.reconnectAttempts ∧
         cfgWitness1.reconnectDelay = cfgWitness2.reconnectDelay ∧
         cfgWitness1.queueMessages = cfgWitness2.queueMessages ∧
         cfgWitness1.maxQueueSize = cfgWitness2.maxQueueSize ∧
         idParts cfgWitness1 = idParts cfgWitness2)) :=
  ⟨⟨show '|' ∉ ("a,b" : String).data by decide,
    show '|' ∉ ("k" : String).data by decide,
    Or.inl (show ("k" : String) ≠ "" by decide)⟩,
   ⟨show '|' ∉ ("a,b" : String).data by decide,
    show '|' ∉ ("k" : String).data by decide,
    Or.inl (show ("k" : String) ≠ "" by decide)⟩,
   C1_key_amended "ws://x" cfgWitness1 cfgWitness2
     ⟨show '|' ∉ ("a,b" : String).data by decide,
      show '|' ∉ ("k" : String).data by decide,
      Or.inl (show ("k" : String) ≠ "" by decide)⟩
     ⟨show '|' ∉ ("a,b" : String).data by decide,
      show '|' ∉ ("k" : String).data by decide,
      Or.inl (show ("k" : String) ≠ "" by decide)⟩⟩

/-! ### `useSocket.tsx` — the Lifecycle Engine

The engine state is a `World`: the process-wide `socketStore` (key →
`SocketInstance`), the per-hook React state (`Hook`, keyed by subscriber
id, with every state-setter invocation also appended to an observation
log), and a log of the commands issued to the WebSocket transport.

Transport and timer events (`onopen`, `onmessage`, `onerror`, `onclose`,
the reconnect `setTimeout` callback) arrive asynchronously; each is
embedded as an explicit step function `fireOpen`/`fireMessage`/
`fireError`/`fireClose`/`fireTimer`.  Whether `new WebSocket(...)`
throws synchronously is the `ctorOk` parameter of `connectSocket`. -/

inductive Status where
  | disconnected
  | connecting
  | connected
  | error
  | reconnecting
deriving DecidableEq, Repr

inductive ReadyState where
  | CONNECTING
  | OPEN
  | CLOSING
  | CLOSED
deriving DecidableEq, Repr

/-- A command issued to the underlying transport. -/
inductive WsOp where
  | ctor
  | send (frame : String)
  | close
deriving DecidableEq, Repr

/-- The `Subscriber` record registered on an instance (its callbacks are
addressed through `id` into the hook registry). -/
structure Subscriber where
  id : String
  isConnected : Bool
deriving DecidableEq, Repr

/-- `SocketInstance` from `types.ts`.  The transport handle is reduced to
its `readyState`; `reconnectTimer = some d` is a pending timer scheduled
with delay `d`. -/
structure SocketInstance (α β : Type) where
  socket : Option ReadyState
  key : String
  status : Status
  subscribers : List Subscriber
  refCount : Int
  reconnectAttemptsMade : Nat
  messageQueue : List β
  config : NormalizedOptions α β
  killed : Bool
  reconnectTimer : Option Nat

/-- The React-side state of one hook instance.  `statusLog` and `lastLog`
record every invocation of `setStatus` / `setLastReturnedData`;
`allData` is itself the append-log of `addToAllData`. -/
structure Hook (α : Type) where
  status : Status
  statusLog : List Status
  lastReturnedData : Option α
  lastLog : List α
  allData : List α
  isConnectedRef : Bool

/-- The whole engine state. -/
structure World (α β : Type) where
  store : List (String × SocketInstance α β)
  hooks : List (String × Hook α)
  wsLog : List WsOp

/-- The `setStatus` React setter of one hook. -/
def setStatusH {α : Type} (st : Status) (h : Hook α) : Hook α :=
  { h with status := st, statusLog := h.statusLog ++ [st] }

/-- The `setLastReturnedData` + `addToAllData` pair invoked on message
delivery. -/
def deliverH {α : Type} (v : α) (h : Hook α) : Hook α :=
  { h with lastReturnedData := some v, lastLog := h.lastLog ++ [v],
           allData := h.allData ++ [v] }

/-- `instance.subscribers.forEach(sub => ...)`: apply a per-subscriber
hook update, in insertion order. -/
def broadcast {α : Type} (f : Subscriber → Hook α → Hook α) :
    List Subscriber → List (String × Hook α) → List (String × Hook α)
  | [], hooks => hooks
  | s :: rest, hooks => broadcast f rest (aupdate s.id (f s) hooks)

/-- `updateAllSubscribers` from `useSocket.tsx`: set the instance status
and synchronously invoke every subscriber's `setStatus`. -/
def updateAllSubscribers {α β : Type} (inst : SocketInstance α β)
    (hooks : List (String × Hook α)) (newStatus : Status) :
    SocketInstance α β × List (String × Hook α) :=
  ({ inst with status := newStatus },
   broadcast (fun _ => setStatusH newStatus) inst.subscribers hooks)

/-- The frames emitted by the `flushQueue` drain loop: one
serialize+send per entry, a throwing serialize drops that entry only. -/
def drainQueue {β : Type} (ser : β → Option String) : List β → List String
  | [] => []
  | d :: rest =>
    match ser d with
    | some s => s :: drainQueue ser rest
    | none => drainQueue ser rest

/-- `flushQueue` from `useSocket.tsx`. -/
def flushQueue {α β : Type} (inst : SocketInstance α β) (wsLog : List WsOp) :
    SocketInstance α β × List WsOp :=
  if inst.socket = some ReadyState.OPEN then
    ({ inst with messageQueue := [] },
     wsLog ++ (drainQueue inst.config.serialize.fn inst.messageQueue).map WsOp.send)
  else (inst, wsLog)

/-- `reconnectAttemptsMade >= config.reconnectAttempts` (never true for
the `Infinity` default). -/
def attemptsExhausted {α β : Type} (inst : SocketInstance α β) : Bool :=
  match inst.config.reconnectAttempts with
  | none => false
  | some a => decide (a ≤ inst.reconnectAttemptsMade)

/-- `scheduleReconnect` from `useSocket.tsx`. -/
def scheduleReconnect {α β : Type} (inst : SocketInstance α β)
    (hooks : List (String × Hook α)) :
    SocketInstance α β × List (String × Hook α) :=
  let inst1 := { inst with reconnectTimer := none }
  if inst1.killed || !inst1.config.autoReconnect then (inst1, hooks)
  else if attemptsExhausted inst1 then
    updateAllSubscribers inst1 hooks Status.error
  else
    let inst2 := { inst1 with reconnectAttemptsMade := inst1.reconnectAttemptsMade + 1 }
    let p := updateAllSubscribers inst2 hooks Status.reconnecting
    let d := inst2.config.reconnectDelay * inst2.reconnectAttemptsMade
    ({ p.1 with reconnectTimer := some d }, p.2)

/-- `connectSocket` from `useSocket.tsx` (the synchronous part; the
installed event handlers are the `fire*` steps below).  `ctorOk` is
whether `new WebSocket(url, protocols)` returns without throwing. -/
def connectSocket {α β : Type} (ctorOk : Bool) (inst : SocketInstance α β)
    (hooks : List (String × Hook α)) (wsLog : List WsOp) :
    SocketInstance α β × List (String × Hook α) × List WsOp :=
  if inst.socket = some ReadyState.OPEN then
    let p := updateAllSubscribers inst hooks Status.connected
    (p.1, p.2, wsLog)
  else if inst.socket = some ReadyState.CONNECTING then
    let p := updateAllSubscribers inst hooks Status.connecting
    (p.1, p.2, wsLog)
  else
    let inst1 := { inst with reconnectTimer := none }
    let p := updateAllSubscribers inst1 hooks Status.connecting
    if ctorOk then
      ({ p.1 with socket := some ReadyState.CONNECTING }, p.2, wsLog ++ [WsOp.ctor])
    else
      let q := updateAllSubscribers p.1 p.2 Status.error
      if !q.1.killed && q.1.config.autoReconnect then
        let r := scheduleReconnect q.1 q.2
        (r.1, r.2, wsLog)
      else (q.1, q.2, wsLog)

/-- `ws.onopen`: the browser has moved the socket to `OPEN`; reset the
retry counter, broadcast `connected`, flush the queue. -/
def fireOpen {α β : Type} (k : String) (w : World α β) : World α β :=
  match alookup k w.store with
  | none => w
  | some inst =>
    let inst1 := { inst with socket := some ReadyState.OPEN, reconnectAttemptsMade := 0 }
    let p := updateAllSubscribers inst1 w.hooks Status.connected
    let q := flushQueue p.1 w.wsLog
    { store := aset k q.1 w.store, hooks := p.2, wsLog := q.2 }

/-- `ws.onmessage`: parse once at the instance level, then fan out to
every connected subscriber; a parse throw is caught and nothing happens. -/
def fireMessage {α β : Type} (k : String) (frame : String) (w : World α β) : World α β :=
  match alookup k w.store with
  | none => w
  | some inst =>
    match inst.config.parse.fn frame with
    | none => w
    | some v =>
      let f := fun (s : Subscriber) (h : Hook α) => if s.isConnected then deliverH v h else h
      { w with hooks := broadcast f inst.subscribers w.hooks }

/-- `ws.onerror`: broadcast `error`. -/
def fireError {α β : Type} (k : String) (w : World α β) : World α β :=
  match alookup k w.store with
  | none => w
  | some inst =>
    let p := updateAllSubscribers inst w.hooks Status.error
    { store := aset k p.1 w.store, hooks := p.2, wsLog := w.wsLog }

/-- `ws.onclose`: clear the handle; reconnect when allowed, otherwise
broadcast `disconnected`. -/
def fireClose {α β : Type} (k : String) (w : World α β) : World α β :=
  match alookup k w.store with
  | none => w
  | some inst =>
    let inst1 := { inst with socket := none }
    if !inst1.killed && inst1.config.autoReconnect && decide (0 < inst1.refCount) then
      let p := scheduleReconnect inst1 w.hooks
      { store := aset k p.1 w.store, hooks := p.2, wsLog := w.wsLog }
    else
      let p := updateAllSubscribers inst1 w.hooks Status.disconnected
      { store := aset k p.1 w.store, hooks := p.2, wsLog := w.wsLog }

/-- The reconnect `setTimeout` callback: only a still-pending timer can
fire; it clears itself and calls `connectSocket`. -/
def fireTimer {α β : Type} (ctorOk : Bool) (k : String) (w : World α β) : World α β :=
  match alookup k w.store with
  | none => w
  | some inst =>
    match inst.reconnectTimer with
    | none => w
    | some _ =>
      let inst1 := { inst with reconnectTimer := none }
      let q := connectSocket ctorOk inst1 w.hooks w.wsLog
      { store := aset k q.1 w.store, hooks := q.2.1, wsLog := q.2.2 }

/-- The fresh instance built by `getOrCreateInstance`. -/
def freshInstance {α β : Type} (k : String) (cfg : NormalizedOptions α β) :
    SocketInstance α β :=
  { socket := none, key := k, status := Status.disconnected, subscribers := [],
    refCount := 0, reconnectAttemptsMade := 0, messageQueue := [], config := cfg,
    killed := false, reconnectTimer := none }

/-- `getOrCreateInstance` (the returned instance; `connect` writes it
back to the store at the end of its synchronous run). -/
def getInst {α β : Type} (k : String) (cfg : NormalizedOptions α β) (w : World α β) :
    SocketInstance α β :=
  match alookup k w.store with
  | some inst => inst
  | none => freshInstance k cfg

/-- The calling hook's `isConnectedRef.current` (a hook that does not
exist cannot call `connect`/`disconnect`; reading it as `true` makes the
registration/removal steps no-ops in that vacuous case). -/
def hookConnectedFlag {α : Type} (subId : String) (hooks : List (String × Hook α)) : Bool :=
  match alookup subId hooks with
  | some h => h.isConnectedRef
  | none => true

/-- Lines 248–264 of `useSocket.tsx`: register this subscriber if its
`isConnectedRef` is not yet set — add the binding, bump `refCount`, set
the ref, and immediately sync `setStatus` with the instance's current
status. -/
def registerStep {α β : Type} (subId : String) (inst : SocketInstance α β)
    (hooks : List (String × Hook α)) :
    SocketInstance α β × List (String × Hook α) :=
  if hookConnectedFlag subId hooks then (inst, hooks)
  else
    let subs1 := inst.subscribers ++ [Subscriber.mk subId true]
    let inst1 := { inst with subscribers := subs1, refCount := inst.refCount + 1 }
    let g := fun (h : Hook α) => setStatusH inst.status { h with isConnectedRef := true }
    (inst1, aupdate subId g hooks)

/-- `connect` from `useSocket.tsx`: get-or-create, register, clear the
kill flag, `connectSocket`. -/
def connect {α β : Type} (k subId : String) (cfg : NormalizedOptions α β)
    (ctorOk : Bool) (w : World α β) : World α β :=
  let inst0 := getInst k cfg w
  let p := registerStep subId inst0 w.hooks
  let q := connectSocket ctorOk { p.1 with killed := false } p.2 w.wsLog
  { store := aset k q.1 w.store, hooks := q.2.1, wsLog := q.2.2 }

/-- `Array.from(subscribers).find(sub => sub.id === subscriberId)`
followed by `subscribers.delete(...)`: remove the first binding with the
given id. -/
def removeSub (sid : String) : List Subscriber → List Subscriber
  | [] => []
  | s :: rest => if s.id = sid then rest else s :: removeSub sid rest

/-- Whether a binding with this id is present. -/
def hasSub (sid : String) : List Subscriber → Bool
  | [] => false
  | s :: rest => s.id == sid || hasSub sid rest

/-- `disconnect` from `useSocket.tsx`. -/
def disconnect {α β : Type} (k subId : String) (w : World α β) : World α β :=
  match alookup k w.store with
  | none => w
  | some inst =>
    if !hookConnectedFlag subId w.hooks then w
    else
      let p :=
        if hasSub subId inst.subscribers then
          let instR := { inst with subscribers := removeSub subId inst.subscribers, refCount := inst.refCount - 1 }
          (instR, aupdate subId (fun h => { h with isConnectedRef := false }) w.hooks)
        else (inst, w.hooks)
      if p.1.refCount ≤ 0 then
        { store := adel k w.store,
          hooks := aupdate subId (setStatusH Status.disconnected) p.2,
          wsLog := if p.1.socket.isSome then w.wsLog ++ [WsOp.close] else w.wsLog }
      else
        { store := aset k p.1 w.store,
          hooks := aupdate subId (setStatusH Status.disconnected) p.2,
          wsLog := w.wsLog }

/-- The bounded-queue drop loop of `send`:
`while (queue.length > maxQueueSize) queue.shift()`. -/
def shiftWhile {β : Type} : List β → Nat → List β
  | [], _ => []
  | x :: xs, maxQ => if maxQ < (x :: xs).length then shiftWhile xs maxQ else x :: xs

/-- `send` from `useSocket.tsx`. -/
def send {α β : Type} (k : String) (m : β) (w : World α β) : World α β :=
  match alookup k w.store with
  | none => w
  | some inst =>
    if inst.socket = some ReadyState.OPEN then
      match inst.config.serialize.fn m with
      | some s => { w with wsLog := w.wsLog ++ [WsOp.send s] }
      | none => w
    else if inst.config.queueMessages then
      let instQ := { inst with messageQueue := shiftWhile (inst.messageQueue ++ [m]) inst.config.maxQueueSize }
      { w with store := aset k instQ w.store }
    else w

/-- `killSocketForAllSubscribers` from `useSocket.tsx`. -/
def killSocketForAllSubscribers {α β : Type} (k : String) (w : World α β) : World α β :=
  match alookup k w.store with
  | none => w
  | some inst =>
    let log := if inst.socket.isSome then w.wsLog ++ [WsOp.close] else w.wsLog
    let inst1 := { inst with killed := true, reconnectTimer := none, socket := none }
    let p := updateAllSubscribers inst1 w.hooks Status.disconnected
    { store := aset k p.1 w.store, hooks := p.2, wsLog := log }

/-! ### Engine helper lemmas -/

theorem shiftWhile_eq_drop {β : Type} : ∀ (l : List β) (k : Nat),
    shiftWhile l k = l.drop (l.length - k) := by
  intro l
  induction l with
  | nil => intro k; simp [shiftWhile]
  | cons x xs ih =>
    intro k
    by_cases h : k < (x :: xs).length
    · have hlen : (x :: xs).length - k = (xs.length - k) + 1 := by
        simp only [List.length_cons] at *
        omega
      simp only [shiftWhile, if_pos h, hlen, List.drop_succ_cons]
      exact ih k
    · have h' : ¬ k < xs.length + 1 := by simpa using h
      have hlen : xs.length + 1 - k = 0 := by omega
      simp [shiftWhile, h', hlen]

theorem drainQueue_eq_filterMap {β : Type} (ser : β → Option String) :
    ∀ l : List β, drainQueue ser l = l.filterMap ser := by
  intro l
  induction l with
  | nil => simp [drainQueue]
  | cons d rest ih =>
    cases hd : ser d <;> simp [drainQueue, hd, ih]

theorem alookup_broadcast_of_notin {α : Type} (f : Subscriber → Hook α → Hook α) :
    ∀ (subs : List Subscriber) (hooks : List (String × Hook α)) (i : String),
    (∀ s ∈ subs, s.id ≠ i) →
    alookup i (broadcast f subs hooks) = alookup i hooks := by
  intro subs
  induction subs with
  | nil => intro hooks i _; rfl
  | cons t rest ih =>
    intro hooks i h
    have ht : t.id ≠ i := h t (List.mem_cons_self t rest)
    rw [broadcast, ih _ i (fun s hs => h s (List.mem_cons_of_mem t hs)),
      alookup_aupdate_ne _ _ (Ne.symm ht)]

theorem alookup_broadcast_of_mem {α : Type} (f : Subscriber → Hook α → Hook α) :
    ∀ (subs : List Subscriber) (hooks : List (String × Hook α)) (s : Subscriber),
    s ∈ subs → (subs.map Subscriber.id).Nodup →
    alookup s.id (broadcast f subs hooks) = (alookup s.id hooks).map (f s) := by
  intro subs
  induction subs with
  | nil => intro hooks s hmem; exact absurd hmem (List.not_mem_nil s)
  | cons t rest ih =>
    intro hooks s hmem hnodup
    rw [List.map_cons, List.nodup_cons] at hnodup
    rcases List.mem_cons.mp hmem with rfl | hmem'
    · rw [broadcast, alookup_broadcast_of_notin]
      · exact alookup_aupdate_self _ _ _
      · intro u hu he
        exact hnodup.1 (he ▸ List.mem_map_of_mem Subscriber.id hu)
    · have hne : s.id ≠ t.id := by
        intro he
        exact hnodup.1 (he ▸ List.mem_map_of_mem Subscriber.id hmem')
      rw [broadcast, ih _ s hmem' hnodup.2, alookup_aupdate_ne _ _ hne]

theorem alookup_aupdate_proj {α : Type} {γ : Type} (π : Hook α → γ)
    (g : Hook α → Hook α) (hg : ∀ h, π (g h) = π h) (j : String)
    (hooks : List (String × Hook α)) (i : String) :
    (alookup i (aupdate j g hooks)).map π = (alookup i hooks).map π := by
  by_cases h : i = j
  · subst h
    rw [alookup_aupdate_self]
    cases alookup i hooks with
    | none => rfl
    | some h0 => simp [hg]
  · rw [alookup_aupdate_ne _ _ h]

theorem alookup_broadcast_proj {α : Type} {γ : Type} (π : Hook α → γ)
    (f : Subscriber → Hook α → Hook α) (hf : ∀ s h, π (f s h) = π h) :
    ∀ (subs : List Subscriber) (hooks : List (String × Hook α)) (i : String),
    (alookup i (broadcast f subs hooks)).map π = (alookup i hooks).map π := by
  intro subs
  induction subs with
  | nil => intro hooks i; rfl
  | cons t rest ih =>
    intro hooks i
    rw [broadcast, ih, alookup_aupdate_proj π (f t) (hf t)]

/-- A hook transformation that only appends to the status log. -/
def extending {α : Type} (g : Hook α → Hook α) : Prop :=
  ∀ h : Hook α, ∃ r, (g h).statusLog = h.statusLog ++ r

/-- `hooks'` refines `hooks` by append-only status logs. -/
def hooksExtend {α : Type} (hooks hooks' : List (String × Hook α)) : Prop :=
  ∀ i h0, alookup i hooks = some h0 →
    ∃ h1, alookup i hooks' = some h1 ∧ ∃ r, h1.statusLog = h0.statusLog ++ r

theorem hooksExtend_refl {α : Type} (hooks : List (String × Hook α)) :
    hooksExtend hooks hooks :=
  fun _ h0 h => ⟨h0, h, [], by simp⟩

theorem hooksExtend_trans {α : Type} {a b c : List (String × Hook α)}
    (h1 : hooksExtend a b) (h2 : hooksExtend b c) : hooksExtend a c := by
  intro i h0 hl
  obtain ⟨hb, hlb, r1, he1⟩ := h1 i h0 hl
  obtain ⟨hc, hlc, r2, he2⟩ := h2 i hb hlb
  exact ⟨hc, hlc, r1 ++ r2, by rw [he2, he1, List.append_assoc]⟩

theorem aupdate_hooksExtend {α : Type} (j : String) (g : Hook α → Hook α)
    (hg : extending g) (hooks : List (String × Hook α)) :
    hooksExtend hooks (aupdate j g hooks) := by
  intro i h0 hl
  by_cases h : i = j
  · subst h
    rw [alookup_aupdate_self, hl]
    exact ⟨g h0, rfl, hg h0⟩
  · rw [alookup_aupdate_ne _ _ h, hl]
    exact ⟨h0, rfl, [], by simp⟩

theorem broadcast_hooksExtend {α : Type} (f : Subscriber → Hook α → Hook α)
    (hf : ∀ s, extending (f s)) :
    ∀ (subs : List Subscriber) (hooks : List (String × Hook α)),
    hooksExtend hooks (broadcast f subs hooks) := by
  intro subs
  induction subs with
  | nil => intro hooks; exact hooksExtend_refl hooks
  | cons t rest ih =>
    intro hooks
    exact hooksExtend_trans (aupdate_hooksExtend t.id (f t) (hf t) hooks) (ih _)

theorem setStatusH_extending {α : Type} (st : Status) :
    extending (fun h : Hook α => setStatusH st h) :=
  fun _ => ⟨[st], rfl⟩

/-- `connectSocket` never touches the subscriber set, the reference count,
the queue, the config, the kill flag or the key of the instance. -/
theorem connectSocket_inst {α β : Type} (ctorOk : Bool) (inst : SocketInstance α β)
    (hooks : List (String × Hook α)) (wsLog : List WsOp) :
    (connectSocket ctorOk inst hooks wsLog).1.subscribers = inst.subscribers ∧
    (connectSocket ctorOk inst hooks wsLog).1.refCount = inst.refCount ∧
    (connectSocket ctorOk inst hooks wsLog).1.messageQueue = inst.messageQueue ∧
    (connectSocket ctorOk inst hooks wsLog).1.config = inst.config ∧
    (connectSocket ctorOk inst hooks wsLog).1.killed = inst.killed ∧
    (connectSocket ctorOk inst hooks wsLog).1.key = inst.key := by
  simp only [connectSocket, updateAllSubscribers, scheduleReconnect]
  split_ifs <;> simp

/-- `connectSocket` leaves every hook's `isConnectedRef` untouched. -/
theorem connectSocket_hooks_ref {α β : Type} (ctorOk : Bool) (inst : SocketInstance α β)
    (hooks : List (String × Hook α)) (wsLog : List WsOp) (i : String) :
    (alookup i (connectSocket ctorOk inst hooks wsLog).2.1).map Hook.isConnectedRef =
      (alookup i hooks).map Hook.isConnectedRef := by
  have hb : ∀ (st : Status) (subs : List Subscriber) (hs : List (String × Hook α)),
      (alookup i (broadcast (fun _ => setStatusH st) subs hs)).map Hook.isConnectedRef =
        (alookup i hs).map Hook.isConnectedRef := by
    intro st subs hs
    exact alookup_broadcast_proj Hook.isConnectedRef
      (fun _ => setStatusH st) (fun _ _ => rfl) subs hs i
  simp only [connectSocket, updateAllSubscribers, scheduleReconnect]
  split_ifs <;> simp [hb]

/-- `connectSocket` only appends to status logs. -/
theorem connectSocket_hooks_extend {α β : Type} (ctorOk : Bool) (inst : SocketInstance α β)
    (hooks : List (String × Hook α)) (wsLog : List WsOp) :
    hooksExtend hooks (connectSocket ctorOk inst hooks wsLog).2.1 := by
  have hb : ∀ (st : Status) (subs : List Subscriber) (hs : List (String × Hook α)),
      hooksExtend hs (broadcast (fun _ => setStatusH st) subs hs) := by
    intro st subs hs
    exact broadcast_hooksExtend _ (fun _ => setStatusH_extending st) subs hs
  simp only [connectSocket, updateAllSubscribers, scheduleReconnect]
  split_ifs <;>
    first
      | exact hooksExtend_trans (hb _ _ _) (hb _ _ _)
      | exact hooksExtend_trans (hb _ _ _) (hooksExtend_trans (hb _ _ _) (hb _ _ _))
      | exact hb _ _ _

/-! ### Claim C10 -/

/-- C10: if `send` is called when no instance exists in the store for the
key (before any `connect`, or after the last detach removed it), the
world is unchanged: the message is dropped (only reported), nothing is
queued, no entry is created, and — the step being a total function — no
exception escapes. -/
theorem C10_send_without_instance {α β : Type} (k : String) (m : β) (w : World α β)
    (h : alookup k w.store = none) : send k m w = w := by
  simp [send, h]

/-- The world before any `connect`: empty store, one mounted hook. -/
def hook0 : Hook Nat :=
  { status := Status.disconnected, statusLog := [], lastReturnedData := none,
    lastLog := [], allData := [], isConnectedRef := false }

def emptyWorld : World Nat Nat := { store := [], hooks := [("s1", hook0)], wsLog := [] }

/-- C10 witness: sending into the empty store is a no-op. -/
theorem C10_witness :
    alookup "k" emptyWorld.store = none ∧ send "k" (5 : Nat) emptyWorld = emptyWorld :=
  ⟨rfl, C10_send_without_instance "k" 5 emptyWorld rfl⟩

/-! ### Claim C4 -/

theorem shiftWhile_length_le {β : Type} (l : List β) (k : Nat) :
    (shiftWhile l k).length ≤ k ∨ (shiftWhile l k) = l := by
  rw [shiftWhile_eq_drop]
  by_cases h : l.length ≤ k
  · right
    rw [Nat.sub_eq_zero_of_le h, List.drop_zero]
  · left
    rw [List.length_drop]
    omega

/-- The instance after one queued `send`: push, then drop from the front
down to capacity. -/
def instShifted {α β : Type} (m : β) (inst : SocketInstance α β) : SocketInstance α β :=
  { inst with
    messageQueue := shiftWhile (inst.messageQueue ++ [m]) inst.config.maxQueueSize }

/-- The suffix of `q ++ msgs` that fits into capacity `K`. -/
def queueAfter {β : Type} (q msgs : List β) (K : Nat) : List β :=
  (q ++ msgs).drop ((q ++ msgs).length - K)

/-- Folding `send` over a message list while the transport is not open
with queueing enabled: the queue becomes the suffix of
`initial queue ++ messages` that fits `maxQueueSize`, and nothing else
on the instance changes. -/
theorem send_fold_queue {α β : Type} (k : String) :
    ∀ (msgs : List β) (w : World α β) (inst : SocketInstance α β),
    alookup k w.store = some inst →
    inst.socket ≠ some ReadyState.OPEN →
    inst.config.queueMessages = true →
    inst.messageQueue.length ≤ inst.config.maxQueueSize →
    alookup k (msgs.foldl (fun w' m => send k m w') w).store =
      some { inst with messageQueue := queueAfter inst.messageQueue msgs inst.config.maxQueueSize } := by
  intro msgs
  induction msgs with
  | nil =>
    intro w inst hfound _ _ hlen
    have h0 : queueAfter inst.messageQueue [] inst.config.maxQueueSize =
        inst.messageQueue := by
      simp only [queueAfter, List.append_nil]
      rw [Nat.sub_eq_zero_of_le hlen, List.drop_zero]
    simp only [List.foldl_nil, h0]
    exact hfound
  | cons m rest ih =>
    intro w inst hfound hnotopen hqm hlen
    have hsend : send k m w =
        { w with store := aset k (instShifted m inst) w.store } := by
      simp [send, instShifted, hfound, hnotopen, hqm]
    rw [List.foldl_cons, hsend]
    have hqlen : (instShifted m inst).messageQueue.length ≤
        (instShifted m inst).config.maxQueueSize := by
      simp only [instShifted, shiftWhile_eq_drop, List.length_drop]
      simp only [List.length_append, List.length_cons, List.length_nil]
      omega
    have hstep := ih { w with store := aset k (instShifted m inst) w.store }
      (instShifted m inst) (by simp) hnotopen hqm hqlen
    rw [hstep]
    have harith : queueAfter (instShifted m inst).messageQueue rest
          (instShifted m inst).config.maxQueueSize =
        queueAfter inst.messageQueue (m :: rest) inst.config.maxQueueSize := by
      simp only [queueAfter, instShifted, shiftWhile_eq_drop]
      have haa : (inst.messageQueue ++ [m]).length - inst.config.maxQueueSize ≤
          (inst.messageQueue ++ [m]).length := Nat.sub_le _ _
      rw [← List.drop_append_of_le_length haa, List.drop_drop]
      have hassoc : inst.messageQueue ++ [m] ++ rest = inst.messageQueue ++ m :: rest := by
        simp
      rw [hassoc]
      congr 1
      simp only [List.length_drop, List.length_append, List.length_cons, List.length_nil] at *
      omega
    rw [harith]
    rfl

/-- C4: sending `N` messages while the transport is not open, with
queueing enabled, `maxQueueSize = K` and `N > K`, leaves the queue
holding exactly the `K` most recent messages in their original relative
order (oldest dropped from the front). -/
theorem C4_queue_keeps_most_recent {α β : Type} (k : String) (w : World α β)
    (inst : SocketInstance α β) (msgs : List β) (K : Nat)
    (hfound : alookup k w.store = some inst)
    (hnotopen : inst.socket ≠ some ReadyState.OPEN)
    (hqm : inst.config.queueMessages = true)
    (hK : inst.config.maxQueueSize = K)
    (hq0 : inst.messageQueue = [])
    (hNK : K < msgs.length) :
    (alookup k (msgs.foldl (fun w' m => send k m w') w).store).map
        SocketInstance.messageQueue = some (msgs.drop (msgs.length - K)) ∧
    (msgs.drop (msgs.length - K)).length = K := by
  constructor
  · rw [send_fold_queue k msgs w inst hfound hnotopen hqm (by rw [hq0]; simp)]
    simp [queueAfter, hq0, hK]
  · rw [List.length_drop]
    omega

/-- A mounted hook that has already connected. -/
def hookConn : Hook Nat :=
  { status := Status.disconnected, statusLog := [], lastReturnedData := none,
    lastLog := [], allData := [], isConnectedRef := true }

def natParse : JsFun String Nat :=
  ⟨defaultParseSrc, fun s => if s = "7" then some 7 else none⟩

def natSerialize : JsFun Nat String := ⟨defaultSerializeSrc, fun n => some (natStr n)⟩

/-- A custom serializer that throws on the payload `2`. -/
def failSerialize : JsFun Nat String :=
  ⟨"(data) => riskyStringify(data)", fun n => if n = 2 then none else some (natStr n)⟩

def cfgBase : NormalizedOptions Nat Nat :=
  { autoConnect := false, protocols := none, autoReconnect := false,
    reconnectAttempts := none, reconnectDelay := 1000, queueMessages := false,
    maxQueueSize := 50, parse := natParse, serialize := natSerialize, key := none }

def instC4 : SocketInstance Nat Nat :=
  { socket := none, key := "k", status := Status.disconnected,
    subscribers := [⟨"s1", true⟩], refCount := 1, reconnectAttemptsMade := 0,
    messageQueue := [], config := { cfgBase with queueMessages := true, maxQueueSize := 2 },
    killed := false, reconnectTimer := none }

def wC4 : World Nat Nat :=
  { store := [("k", instC4)], hooks := [("s1", hookConn)], wsLog := [] }

/-- C4 witness: three sends into a capacity-2 queue keep `[20, 30]`. -/
theorem C4_witness :
    alookup "k" wC4.store = some instC4 ∧
    instC4.socket ≠ some ReadyState.OPEN ∧
    instC4.config.queueMessages = true ∧
    instC4.config.maxQueueSize = 2 ∧
    instC4.messageQueue = [] ∧
    2 < ([10, 20, 30] : List Nat).length ∧
    (alookup "k" (([10, 20, 30] : List Nat).foldl (fun w' m => send "k" m w') wC4).store).map
      SocketInstance.messageQueue = some [20, 30] := by
  refine ⟨rfl, by decide, rfl, rfl, rfl, by decide, ?_⟩
  have h := C4_queue_keeps_most_recent "k" wC4 instC4 [10, 20, 30] 2 rfl (by decide)
    rfl rfl rfl (by decide)
  simpa using h.1

/-! ### Claim C5 -/

/-- C5: with the transport open, `flushQueue` drains the queue strictly
in insertion order — one serialize+transmit per entry, each entry sent
exactly once — and leaves the queue empty; an entry whose serialize
throws is discarded (it contributes no frame) without halting the drain
of the entries after it.  The transmitted frames are exactly
`filterMap serialize queue`, in order. -/
theorem C5_flush_drains_in_order {α β : Type} (inst : SocketInstance α β)
    (wsLog : List WsOp) (hopen : inst.socket = some ReadyState.OPEN) :
    (flushQueue inst wsLog).1.messageQueue = [] ∧
    (flushQueue inst wsLog).2 =
      wsLog ++ (inst.messageQueue.filterMap inst.config.serialize.fn).map WsOp.send := by
  simp [flushQueue, hopen, drainQueue_eq_filterMap]

def instC5 : SocketInstance Nat Nat :=
  { socket := some ReadyState.OPEN, key := "k", status := Status.connected,
    subscribers := [⟨"s1", true⟩], refCount := 1, reconnectAttemptsMade := 0,
    messageQueue := [1, 2, 3], config := { cfgBase with serialize := failSerialize },
    killed := false, reconnectTimer := none }

/-- C5 witness: queue `[1, 2, 3]` where serializing `2` throws — the
drain sends frames `"1"` and `"3"` in order and empties the queue. -/
theorem C5_witness :
    instC5.socket = some ReadyState.OPEN ∧
    instC5.messageQueue = [1, 2, 3] ∧
    (flushQueue instC5 []).1.messageQueue = [] ∧
    (flushQueue instC5 []).2 = [WsOp.send "1", WsOp.send "3"] := by
  refine ⟨rfl, rfl, (C5_flush_drains_in_order instC5 [] rfl).1, ?_⟩
  have h := (C5_flush_drains_in_order instC5 [] rfl).2
  rw [h]
  rfl

/-! ### Claim C2 -/

theorem removeSub_length (sid : String) : ∀ subs : List Subscriber,
    hasSub sid subs = true → (removeSub sid subs).length + 1 = subs.length := by
  intro subs
  induction subs with
  | nil => intro h; simp [hasSub] at h
  | cons s rest ih =>
    intro h
    by_cases hs : s.id = sid
    · simp [removeSub, hs]
    · have hr : hasSub sid rest = true := by
        simp only [hasSub, Bool.or_eq_true, beq_iff_eq] at h
        rcases h with h | h
        · exact absurd h hs
        · exact h
      have hih := ih hr
      simp only [removeSub, hs, if_false, List.length_cons]
      omega

/-- The §3 invariant: every live entry's `refCount` equals the size of
its subscriber set. -/
def RefInv {α β : Type} (w : World α β) : Prop :=
  ∀ k inst, alookup k w.store = some inst →
    inst.refCount = (inst.subscribers.length : Int)

theorem getInst_refinv {α β : Type} (k : String) (cfg : NormalizedOptions α β)
    (w : World α β) (hw : RefInv w) :
    (getInst k cfg w).refCount = ((getInst k cfg w).subscribers.length : Int) := by
  unfold getInst
  cases hgi : alookup k w.store with
  | some i => exact hw k i hgi
  | none => simp [freshInstance]

/-- C2: `refCount = |subscribers|` is preserved by every attach
(`connect`, which registers a new subscriber at most once) and every
detach (`disconnect`), for every live entry in the store. -/
theorem C2_refcount_invariant {α β : Type} (w : World α β) (k subId : String)
    (cfg : NormalizedOptions α β) (ctorOk : Bool) (hw : RefInv w) :
    RefInv (connect k subId cfg ctorOk w) ∧ RefInv (disconnect k subId w) := by
  constructor
  · intro k' inst' hl
    by_cases hk : k' = k
    · subst hk
      have hstore : (connect k' subId cfg ctorOk w).store =
          aset k' (connectSocket ctorOk
            { (registerStep subId (getInst k' cfg w) w.hooks).1 with killed := false }
            (registerStep subId (getInst k' cfg w) w.hooks).2 w.wsLog).1 w.store := rfl
      rw [hstore, alookup_aset_self] at hl
      injection hl with hl
      subst hl
      have hcs := connectSocket_inst ctorOk
        { (registerStep subId (getInst k' cfg w) w.hooks).1 with killed := false }
        (registerStep subId (getInst k' cfg w) w.hooks).2 w.wsLog
      rw [hcs.1, hcs.2.1]
      show (registerStep subId (getInst k' cfg w) w.hooks).1.refCount =
        (((registerStep subId (getInst k' cfg w) w.hooks).1.subscribers).length : Int)
      have hbase := getInst_refinv k' cfg w hw
      unfold registerStep
      by_cases hflag : hookConnectedFlag subId w.hooks
      · simp only [hflag, if_pos]
        exact hbase
      · simp only [hflag, if_neg, Bool.false_eq_true, not_false_iff]
        simp only [List.length_append, List.length_cons, List.length_nil]
        push_cast
        omega
    · have hstore : (connect k subId cfg ctorOk w).store =
          aset k (connectSocket ctorOk
            { (registerStep subId (getInst k cfg w) w.hooks).1 with killed := false }
            (registerStep subId (getInst k cfg w) w.hooks).2 w.wsLog).1 w.store := rfl
      rw [hstore, alookup_aset_ne _ _ hk] at hl
      exact hw k' inst' hl
  · intro k' inst' hl
    unfold disconnect at hl
    cases hfound : alookup k w.store with
    | none =>
      rw [hfound] at hl
      exact hw k' inst' hl
    | some inst =>
      rw [hfound] at hl
      by_cases hflag : hookConnectedFlag subId w.hooks
      · simp only [hflag, Bool.not_true, Bool.false_eq_true, if_false] at hl
        by_cases hhas : hasSub subId inst.subscribers
        · simp only [hhas, if_pos] at hl
          by_cases hzero : inst.refCount - 1 ≤ 0
          · simp only [hzero, if_pos] at hl
            by_cases hk : k' = k
            · subst hk
              rw [alookup_adel_self] at hl
              exact absurd hl (by simp)
            · rw [alookup_adel_ne _ hk] at hl
              exact hw k' inst' hl
          · simp only [hzero, if_neg, not_false_iff] at hl
            by_cases hk : k' = k
            · subst hk
              rw [alookup_aset_self] at hl
              injection hl with hl
              subst hl
              have hbase := hw k' inst hfound
              have hlen := removeSub_length subId inst.subscribers hhas
              simp only []
              omega
            · rw [alookup_aset_ne _ _ hk] at hl
              exact hw k' inst' hl
        · simp only [hhas, Bool.false_eq_true, if_neg, not_false_iff] at hl
          by_cases hzero : inst.refCount ≤ 0
          · simp only [hzero, if_pos] at hl
            by_cases hk : k' = k
            · subst hk
              rw [alookup_adel_self] at hl
              exact absurd hl (by simp)
            · rw [alookup_adel_ne _ hk] at hl
              exact hw k' inst' hl
          · simp only [hzero, if_neg, not_false_iff] at hl
            by_cases hk : k' = k
            · subst hk
              rw [alookup_aset_self] at hl
              injection hl with hl
              subst hl
              exact hw k' inst hfound
            · rw [alookup_aset_ne _ _ hk] at hl
              exact hw k' inst' hl
      · simp only [hflag, Bool.not_false, if_true] at hl
        exact hw k' inst' hl

/-- C2 witness: the invariant holds of a concrete one-entry world and is
preserved by a fresh attach and by a detach. -/
theorem C2_witness :
    RefInv wC4 ∧ RefInv (connect "k" "s2" cfgBase true wC4) ∧
      RefInv (disconnect "k" "s1" wC4) := by
  have hw : RefInv wC4 := by
    intro k inst hl
    simp only [wC4, alookup] at hl
    by_cases h : "k" = k
    · rw [if_pos h] at hl
      injection hl with hl
      subst hl
      rfl
    · rw [if_neg h] at hl
      exact absurd hl (by simp)
  exact ⟨hw, (C2_refcount_invariant wC4 "k" "s2" cfgBase true hw).1,
    (C2_refcount_invariant wC4 "k" "s1" cfgBase true hw).2⟩

/-! ### Claim C8 -/

/-- The instance after a fresh registration: binding appended, refCount
bumped. -/
def registeredInst {α β : Type} (subId : String) (inst : SocketInstance α β) :
    SocketInstance α β :=
  { inst with
    subscribers := inst.subscribers ++ [Subscriber.mk subId true],
    refCount := inst.refCount + 1 }

/-- What registration does to the calling hook: set `isConnectedRef`,
then invoke `setStatus` with the entry's current status. -/
def regHookUpd {α : Type} (st : Status) (h : Hook α) : Hook α :=
  setStatusH st { h with isConnectedRef := true }

/-- C8: the first `connect()` of a subscription adds its binding to the
entry's subscriber set, increments `refCount` by exactly one, sets the
hook's `isConnectedRef`, and the hook's very next `setStatus` invocation
carries the entry's status as it was at attach time (the immediate sync,
before `connectSocket` appends further broadcasts); a second `connect()`
without an intervening `disconnect` neither adds a binding nor
increments `refCount` again. -/
theorem C8_attach_idempotent {α β : Type} (w : World α β) (k subId : String)
    (cfg : NormalizedOptions α β) (ctorOk ctorOk2 : Bool)
    (inst : SocketInstance α β) (h0 : Hook α)
    (hfound : alookup k w.store = some inst)
    (hhook : alookup subId w.hooks = some h0)
    (hflag : h0.isConnectedRef = false) :
    ∃ inst1, alookup k (connect k subId cfg ctorOk w).store = some inst1 ∧
      inst1.subscribers = inst.subscribers ++ [Subscriber.mk subId true] ∧
      inst1.refCount = inst.refCount + 1 ∧
      (∃ h1, alookup subId (connect k subId cfg ctorOk w).hooks = some h1 ∧
        h1.isConnectedRef = true ∧
        (∃ rest, h1.statusLog = h0.statusLog ++ inst.status :: rest)) ∧
      (∃ inst2, alookup k (connect k subId cfg ctorOk2
          (connect k subId cfg ctorOk w)).store = some inst2 ∧
        inst2.subscribers = inst1.subscribers ∧
        inst2.refCount = inst1.refCount) := by
  have hginst : getInst k cfg w = inst := by
    unfold getInst
    rw [hfound]
  have hflag0 : hookConnectedFlag subId w.hooks = false := by
    unfold hookConnectedFlag
    rw [hhook]
    exact hflag
  have hreg1 : (registerStep subId (getInst k cfg w) w.hooks).1 =
      registeredInst subId inst := by
    simp [registerStep, hflag0, hginst, registeredInst]
  have hreg2 : (registerStep subId (getInst k cfg w) w.hooks).2 =
      aupdate subId (regHookUpd inst.status) w.hooks := by
    simp only [registerStep, hflag0, Bool.false_eq_true, if_false]
    rw [hginst]
    rfl
  have hstore : (connect k subId cfg ctorOk w).store =
      aset k (connectSocket ctorOk
        { (registerStep subId (getInst k cfg w) w.hooks).1 with killed := false }
        (registerStep subId (getInst k cfg w) w.hooks).2 w.wsLog).1 w.store := rfl
  have hhooks : (connect k subId cfg ctorOk w).hooks =
      (connectSocket ctorOk
        { (registerStep subId (getInst k cfg w) w.hooks).1 with killed := false }
        (registerStep subId (getInst k cfg w) w.hooks).2 w.wsLog).2.1 := rfl
  rw [hreg1, hreg2] at hstore hhooks
  set instK := { registeredInst subId inst with killed := false } with hinstK
  set hooksA := aupdate subId (regHookUpd inst.status) w.hooks with hhooksA
  set q := connectSocket ctorOk instK hooksA w.wsLog with hq
  have hlookA : alookup subId hooksA = some (regHookUpd inst.status h0) := by
    rw [hhooksA, alookup_aupdate_self, hhook]
    rfl
  refine ⟨q.1, ?_, ?_, ?_, ?_, ?_⟩
  · rw [hstore]
    exact alookup_aset_self k q.1 w.store
  · have hc := (connectSocket_inst ctorOk instK hooksA w.wsLog).1
    rw [← hq] at hc
    rw [hc, hinstK]
    simp [registeredInst]
  · have hc := (connectSocket_inst ctorOk instK hooksA w.wsLog).2.1
    rw [← hq] at hc
    rw [hc, hinstK]
    simp [registeredInst]
  · obtain ⟨h1, hh1, r, hr⟩ :=
      connectSocket_hooks_extend ctorOk instK hooksA w.wsLog subId
        (regHookUpd inst.status h0) hlookA
    rw [← hq] at hh1
    have href := connectSocket_hooks_ref ctorOk instK hooksA w.wsLog subId
    rw [← hq] at href
    rw [hh1, hlookA] at href
    refine ⟨h1, by rw [hhooks]; exact hh1, ?_, r, ?_⟩
    · have hrr : h1.isConnectedRef = (regHookUpd inst.status h0).isConnectedRef := by
        simpa using href
      rw [hrr]
      rfl
    · rw [hr]
      show (setStatusH inst.status { h0 with isConnectedRef := true }).statusLog ++ r =
        h0.statusLog ++ inst.status :: r
      simp [setStatusH]
  · have hfound1 : alookup k (connect k subId cfg ctorOk w).store = some q.1 := by
      rw [hstore]
      exact alookup_aset_self k q.1 w.store
    have hflag1 : hookConnectedFlag subId (connect k subId cfg ctorOk w).hooks = true := by
      unfold hookConnectedFlag
      rw [hhooks]
      obtain ⟨h1, hh1, r, hr⟩ :=
        connectSocket_hooks_extend ctorOk instK hooksA w.wsLog subId
          (regHookUpd inst.status h0) hlookA
      rw [← hq] at hh1
      rw [hh1]
      have href := connectSocket_hooks_ref ctorOk instK hooksA w.wsLog subId
      rw [← hq] at href
      rw [hh1, hlookA] at href
      simpa [regHookUpd, setStatusH] using href
    set w1 := connect k subId cfg ctorOk w with hw1
    have hreg1' : (registerStep subId (getInst k cfg w1) w1.hooks).1 = q.1 := by
      simp only [registerStep, hflag1, if_true]
      unfold getInst
      rw [hfound1]
    have hreg2' : (registerStep subId (getInst k cfg w1) w1.hooks).2 = w1.hooks := by
      simp [registerStep, hflag1]
    have hstore2 : (connect k subId cfg ctorOk2 w1).store =
        aset k (connectSocket ctorOk2
          { (registerStep subId (getInst k cfg w1) w1.hooks).1 with killed := false }
          (registerStep subId (getInst k cfg w1) w1.hooks).2 w1.wsLog).1 w1.store := rfl
    rw [hreg1', hreg2'] at hstore2
    refine ⟨(connectSocket ctorOk2 { q.1 with killed := false } w1.hooks w1.wsLog).1,
      ?_, ?_, ?_⟩
    · rw [hstore2]
      exact alookup_aset_self _ _ _
    · have hc := (connectSocket_inst ctorOk2 { q.1 with killed := false } w1.hooks w1.wsLog).1
      rw [hc]
    · have hc := (connectSocket_inst ctorOk2 { q.1 with killed := false } w1.hooks w1.wsLog).2.1
      rw [hc]

def instC8 : SocketInstance Nat Nat :=
  { socket := some ReadyState.OPEN, key := "k", status := Status.connected,
    subscribers := [⟨"s1", true⟩], refCount := 1, reconnectAttemptsMade := 0,
    messageQueue := [], config := cfgBase, killed := false, reconnectTimer := none }

def wC8 : World Nat Nat :=
  { store := [("k", instC8)], hooks := [("s1", hookConn), ("s2", hook0)], wsLog := [] }

/-- C8 witness: a second hook attaches to a live shared entry, then
calls `connect` again. -/
theorem C8_witness :
    alookup "k" wC8.store = some instC8 ∧
    alookup "s2" wC8.hooks = some hook0 ∧
    hook0.isConnectedRef = false ∧
    (∃ inst1, alookup "k" (connect "k" "s2" cfgBase true wC8).store = some inst1 ∧
      inst1.subscribers = instC8.subscribers ++ [Subscriber.mk "s2" true] ∧
      inst1.refCount = instC8.refCount + 1 ∧
      (∃ h1, alookup "s2" (connect "k" "s2" cfgBase true wC8).hooks = some h1 ∧
        h1.isConnectedRef = true ∧
        (∃ rest, h1.statusLog = hook0.statusLog ++ instC8.status :: rest)) ∧
      (∃ inst2, alookup "k" (connect "k" "s2" cfgBase true
          (connect "k" "s2" cfgBase true wC8)).store = some inst2 ∧
        inst2.subscribers = inst1.subscribers ∧
        inst2.refCount = inst1.refCount)) :=
  ⟨rfl, rfl, rfl,
    C8_attach_idempotent wC8 "k" "s2" cfgBase true true instC8 hook0 rfl rfl rfl⟩

/-! ### Claim C9 -/

/-- The hook registry after fanning a decoded value out to the
connected subscribers. -/
def fanoutHooks {α : Type} (v : α) (subs : List Subscriber)
    (hooks : List (String × Hook α)) : List (String × Hook α) :=
  broadcast (fun s h => if s.isConnected then deliverH v h else h) subs hooks

/-- C9: each inbound frame is decoded once at the entry level; if the
parse function throws, the whole world is untouched (no callback fires,
no binding state changes, and — the handler being total — nothing
propagates out); if it succeeds, the one decoded value is delivered to
every attached, connected subscriber (one `setLastReturnedData` and one
`addToAllData` per subscriber), while unattached hooks are untouched. -/
theorem C9_parse_once_fanout {α β : Type} (w : World α β) (k frame : String)
    (inst : SocketInstance α β)
    (hfound : alookup k w.store = some inst)
    (hnodup : (inst.subscribers.map Subscriber.id).Nodup) :
    (inst.config.parse.fn frame = none → fireMessage k frame w = w) ∧
    (∀ v, inst.config.parse.fn frame = some v →
      (fireMessage k frame w).store = w.store ∧
      (fireMessage k frame w).wsLog = w.wsLog ∧
      (∀ s ∈ inst.subscribers, s.isConnected = true →
        alookup s.id (fireMessage k frame w).hooks =
          (alookup s.id w.hooks).map (deliverH v)) ∧
      (∀ s ∈ inst.subscribers, s.isConnected = false →
        alookup s.id (fireMessage k frame w).hooks = alookup s.id w.hooks) ∧
      (∀ i, i ∉ inst.subscribers.map Subscriber.id →
        alookup i (fireMessage k frame w).hooks = alookup i w.hooks)) := by
  constructor
  · intro hparse
    simp [fireMessage, hfound, hparse]
  · intro v hparse
    have hfm : fireMessage k frame w =
        { w with hooks := fanoutHooks v inst.subscribers w.hooks } := by
      simp [fireMessage, hfound, hparse, fanoutHooks]
    rw [hfm]
    refine ⟨rfl, rfl, ?_, ?_, ?_⟩
    · intro s hs hconn
      show alookup s.id (fanoutHooks v inst.subscribers w.hooks) =
        (alookup s.id w.hooks).map (deliverH v)
      unfold fanoutHooks
      rw [alookup_broadcast_of_mem _ inst.subscribers w.hooks s hs hnodup]
      cases alookup s.id w.hooks <;> simp [hconn]
    · intro s hs hconn
      show alookup s.id (fanoutHooks v inst.subscribers w.hooks) = alookup s.id w.hooks
      unfold fanoutHooks
      rw [alookup_broadcast_of_mem _ inst.subscribers w.hooks s hs hnodup]
      cases alookup s.id w.hooks <;> simp [hconn]
    · intro i hi
      show alookup i (fanoutHooks v inst.subscribers w.hooks) = alookup i w.hooks
      unfold fanoutHooks
      apply alookup_broadcast_of_notin
      intro s hs he
      exact hi (he ▸ List.mem_map_of_mem Subscriber.id hs)

/-- C9 witness: on the shared world, the frame `"x"` fails to parse and
nothing changes; the frame `"7"` decodes to `7` and is delivered to the
attached subscriber. -/
theorem C9_witness :
    alookup "k" wC8.store = some instC8 ∧
    (instC8.subscribers.map Subscriber.id).Nodup ∧
    instC8.config.parse.fn "x" = none ∧
    fireMessage "k" "x" wC8 = wC8 ∧
    instC8.config.parse.fn "7" = some 7 ∧
    alookup "s1" (fireMessage "k" "7" wC8).hooks =
      (alookup "s1" wC8.hooks).map (deliverH 7) := by
  have hnodup : (instC8.subscribers.map Subscriber.id).Nodup := by decide
  have h := C9_parse_once_fanout wC8 "k" "x" instC8 rfl hnodup
  have h7 := C9_parse_once_fanout wC8 "k" "7" instC8 rfl hnodup
  refine ⟨rfl, hnodup, by decide, h.1 (by decide), by decide, ?_⟩
  exact (h7.2 7 (by decide)).2.2.1 ⟨"s1", true⟩ (by decide) rfl

/-! ### Claim C6 -/

/-- The instance as `killSocketForAllSubscribers` leaves it. -/
def killedInst {α β : Type} (inst : SocketInstance α β) : SocketInstance α β :=
  { inst with
    killed := true,
    reconnectTimer := none,
    socket := none,
    status := Status.disconnected }

/-- C6: after `killSocketForAllSubscribers()` on a live entry the
transport is closed (a `close` command is issued) and the handle
cleared, the kill flag is set, the pending reconnect timer is cancelled,
every attached subscriber's status is set to `disconnected`, the message
queue and subscriber set are untouched — and even with `autoReconnect`
on, the transport's subsequent `close` event schedules no reconnect
(the timer stays `none`). -/
theorem C6_kill_switch {α β : Type} (w : World α β) (k : String)
    (inst : SocketInstance α β) (rs : ReadyState)
    (hfound : alookup k w.store = some inst)
    (hsock : inst.socket = some rs)
    (hnodup : (inst.subscribers.map Subscriber.id).Nodup) :
    alookup k (killSocketForAllSubscribers k w).store = some (killedInst inst) ∧
    (killedInst inst).killed = true ∧
    (killedInst inst).socket = none ∧
    (killedInst inst).reconnectTimer = none ∧
    (killedInst inst).status = Status.disconnected ∧
    (killedInst inst).messageQueue = inst.messageQueue ∧
    (killedInst inst).subscribers = inst.subscribers ∧
    (killSocketForAllSubscribers k w).wsLog = w.wsLog ++ [WsOp.close] ∧
    (∀ s ∈ inst.subscribers,
      alookup s.id (killSocketForAllSubscribers k w).hooks =
        (alookup s.id w.hooks).map (setStatusH Status.disconnected)) ∧
    (alookup k (fireClose k (killSocketForAllSubscribers k w)).store).map
      SocketInstance.reconnectTimer = some none ∧
    (alookup k (fireClose k (killSocketForAllSubscribers k w)).store).map
      SocketInstance.killed = some true := by
  have hkill : killSocketForAllSubscribers k w =
      { store := aset k (killedInst inst) w.store,
        hooks := broadcast (fun _ => setStatusH Status.disconnected)
          inst.subscribers w.hooks,
        wsLog := w.wsLog ++ [WsOp.close] } := by
    simp [killSocketForAllSubscribers, hfound, hsock, updateAllSubscribers, killedInst]
  rw [hkill]
  refine ⟨alookup_aset_self _ _ _, rfl, rfl, rfl, rfl, rfl, rfl, rfl, ?_, ?_, ?_⟩
  · intro s hs
    exact alookup_broadcast_of_mem _ inst.subscribers w.hooks s hs hnodup
  · have hfc : alookup k (aset k (killedInst inst) w.store) = some (killedInst inst) :=
      alookup_aset_self _ _ _
    simp [fireClose, hfc, killedInst, updateAllSubscribers]
  · have hfc : alookup k (aset k (killedInst inst) w.store) = some (killedInst inst) :=
      alookup_aset_self _ _ _
    simp [fireClose, hfc, killedInst, updateAllSubscribers]

/-! ### Claim C7 -/

/-- The instance after one detach that leaves other subscribers behind. -/
def detachedInst {α β : Type} (subId : String) (inst : SocketInstance α β) :
    SocketInstance α β :=
  { inst with
    subscribers := removeSub subId inst.subscribers,
    refCount := inst.refCount - 1 }

/-- C7: teardown happens exactly at refcount zero, via detach.  With
more than one reference, a `disconnect` only removes the calling
binding and decrements `refCount`: the entry stays in the store with
its transport handle intact and no `close` is issued — regardless of
the kill flag.  When the last reference detaches (`refCount = 1`), the
entry is removed from the store and the transport is closed. -/
theorem C7_teardown_at_zero {α β : Type} (w : World α β) (k subId : String)
    (inst : SocketInstance α β)
    (hfound : alookup k w.store = some inst)
    (hmem : hasSub subId inst.subscribers = true)
    (hflag : hookConnectedFlag subId w.hooks = true) :
    (1 < inst.refCount →
      alookup k (disconnect k subId w).store = some (detachedInst subId inst) ∧
      (detachedInst subId inst).socket = inst.socket ∧
      (disconnect k subId w).wsLog = w.wsLog) ∧
    (inst.refCount = 1 → inst.socket.isSome = true →
      alookup k (disconnect k subId w).store = none ∧
      (disconnect k subId w).wsLog = w.wsLog ++ [WsOp.close]) := by
  constructor
  · intro hgt
    have hle2 : ¬ inst.refCount - 1 ≤ 0 := by omega
    have hd : disconnect k subId w =
        { store := aset k (detachedInst subId inst) w.store,
          hooks := aupdate subId (setStatusH Status.disconnected)
            (aupdate subId (fun h => { h with isConnectedRef := false }) w.hooks),
          wsLog := w.wsLog } := by
      simp [disconnect, hfound, hflag, hmem, detachedInst, hle2]
    rw [hd]
    exact ⟨alookup_aset_self _ _ _, rfl, rfl⟩
  · intro hone hsock
    have hle2 : inst.refCount - 1 ≤ 0 := by omega
    have hd : disconnect k subId w =
        { store := adel k w.store,
          hooks := aupdate subId (setStatusH Status.disconnected)
            (aupdate subId (fun h => { h with isConnectedRef := false }) w.hooks),
          wsLog := w.wsLog ++ [WsOp.close] } := by
      simp [disconnect, hfound, hflag, hmem, detachedInst, hle2, hsock]
    rw [hd]
    exact ⟨alookup_adel_self _ _, rfl⟩

/-- C6 witness: killing the live shared entry. -/
theorem C6_witness :
    alookup "k" wC8.store = some instC8 ∧
    instC8.socket = some ReadyState.OPEN ∧
    (instC8.subscribers.map Subscriber.id).Nodup ∧
    alookup "k" (killSocketForAllSubscribers "k" wC8).store = some (killedInst instC8) ∧
    (killSocketForAllSubscribers "k" wC8).wsLog = wC8.wsLog ++ [WsOp.close] ∧
    (alookup "k" (fireClose "k" (killSocketForAllSubscribers "k" wC8)).store).map
      SocketInstance.reconnectTimer = some none := by
  have h := C6_kill_switch wC8 "k" instC8 ReadyState.OPEN rfl rfl (by decide)
  exact ⟨rfl, rfl, by decide, h.1, h.2.2.2.2.2.2.2.1, h.2.2.2.2.2.2.2.2.2.1⟩

def instC7 : SocketInstance Nat Nat :=
  { socket := some ReadyState.OPEN, key := "k", status := Status.connected,
    subscribers := [⟨"s1", true⟩, ⟨"s2", true⟩], refCount := 2,
    reconnectAttemptsMade := 0, messageQueue := [], config := cfgBase,
    killed := false, reconnectTimer := none }

def wC7 : World Nat Nat :=
  { store := [("k", instC7)], hooks := [("s1", hookConn), ("s2", hookConn)], wsLog := [] }

/-- C7 witness: two bindings share the entry; the first detach leaves it
alive with the transport untouched, the second removes it and closes
the transport. -/
theorem C7_witness :
    alookup "k" wC7.store = some instC7 ∧
    (1 : Int) < instC7.refCount ∧
    alookup "k" (disconnect "k" "s1" wC7).store = some (detachedInst "s1" instC7) ∧
    (disconnect "k" "s1" wC7).wsLog = wC7.wsLog ∧
    (detachedInst "s1" instC7).refCount = 1 ∧
    alookup "k" (disconnect "k" "s2" (disconnect "k" "s1" wC7)).store = none ∧
    (disconnect "k" "s2" (disconnect "k" "s1" wC7)).wsLog =
      (disconnect "k" "s1" wC7).wsLog ++ [WsOp.close] := by
  have h1 := C7_teardown_at_zero wC7 "k" "s1" instC7 rfl (by decide) (by decide)
  have ha := h1.1 (by decide)
  have h2 := C7_teardown_at_zero (disconnect "k" "s1" wC7) "k" "s2"
    (detachedInst "s1" instC7) ha.1 (by decide) (by decide)
  have hb := h2.2 (by decide) (by decide)
  exact ⟨rfl, by decide, ha.1, ha.2.2, by decide, hb.1, hb.2⟩

/-! ### Claim C3 -/

def cfgC3 : NormalizedOptions Nat Nat :=
  { cfgBase with autoReconnect := true, reconnectAttempts := some 3, reconnectDelay := 1000 }

/-- An entry whose first transport open is in flight. -/
def instC3 : SocketInstance Nat Nat :=
  { socket := some ReadyState.CONNECTING, key := "k", status := Status.connecting,
    subscribers := [⟨"s1", true⟩], refCount := 1, reconnectAttemptsMade := 0,
    messageQueue := [], config := cfgC3, killed := false, reconnectTimer := none }

def wC3 : World Nat Nat :=
  { store := [("k", instC3)], hooks := [("s1", hookConn)], wsLog := [] }

/-- One open failure as the browser delivers it: `error` then `close`. -/
def failStep (w : World Nat Nat) : World Nat Nat := fireClose "k" (fireError "k" w)

/-- The pending reconnect timer fires and the constructor succeeds. -/
def retryStep (w : World Nat Nat) : World Nat Nat := fireTimer true "k" w

def wC3a : World Nat Nat := failStep wC3
def wC3b : World Nat Nat := failStep (retryStep wC3a)
def wC3c : World Nat Nat := failStep (retryStep wC3b)
def wC3d : World Nat Nat := failStep (retryStep wC3c)

/-- C3, counterexample: with `reconnectDelay = 1000` and
`reconnectAttempts = 3`, immediately after the third consecutive open
failure the status is `reconnecting` — not `error` — and a timer for a
fourth connection attempt (delay 3000 ms) is pending, refuting "after
the third failure no fourth attempt is scheduled and the status
broadcast to all subscribers is 'error'". -/
theorem C3_counterexample :
    (alookup "k" wC3c.store).map SocketInstance.reconnectTimer = some (some 3000) ∧
    (alookup "k" wC3c.store).map SocketInstance.status = some Status.reconnecting ∧
    (alookup "k" wC3c.store).map SocketInstance.status ≠ some Status.error ∧
    (alookup "s1" wC3c.hooks).map Hook.status = some Status.reconnecting := by
  exact ⟨rfl, rfl, by decide, rfl⟩

/-- C3 (amended): with `reconnectDelay = 1000` and
`reconnectAttempts = 3`, three consecutive open failures make
`scheduleReconnect` schedule delays of exactly 1000 ms, 2000 ms and
3000 ms (the counter is incremented before scheduling, so the delay of
the Nth scheduled attempt is base × N); when the third scheduled
attempt itself fails — the fourth consecutive open failure — no further
attempt is scheduled and status `error` is broadcast to the
subscribers; a successful open resets the retry counter to 0. -/
theorem C3_linear_backoff :
    (alookup "k" wC3a.store).map SocketInstance.reconnectTimer = some (some 1000) ∧
    (alookup "k" wC3a.store).map SocketInstance.reconnectAttemptsMade = some 1 ∧
    (alookup "k" wC3b.store).map SocketInstance.reconnectTimer = some (some 2000) ∧
    (alookup "k" wC3b.store).map SocketInstance.reconnectAttemptsMade = some 2 ∧
    (alookup "k" wC3c.store).map SocketInstance.reconnectTimer = some (some 3000) ∧
    (alookup "k" wC3c.store).map SocketInstance.reconnectAttemptsMade = some 3 ∧
    (alookup "k" wC3d.store).map SocketInstance.reconnectTimer = some none ∧
    (alookup "k" wC3d.store).map SocketInstance.status = some Status.error ∧
    (alookup "s1" wC3d.hooks).map Hook.status = some Status.error ∧
    (alookup "k" (fireOpen "k" (retryStep wC3b)).store).map
      SocketInstance.reconnectAttemptsMade = some 0 := by
  exact ⟨rfl, rfl, rfl, rfl, rfl, rfl, rfl, rfl, rfl, rfl⟩
